import Mathlib

/-!
Verification of the PokerBirds hand-lifecycle engine (src/PokerGame.js).

Monetary amounts are JS numbers holding cent values; we model them as
rationals so that the exact arithmetic of the source (including the
non-integer results of the showdown division) is captured. Indices and
counters are naturals, except where the source compares against a
possibly negative JS expression, where we cast to the integers.

Card state (deck, board, hole cards) is not modelled: no claim under
verification depends on it, and the card-handling code moves no chips.

The classes Player (PlayerView), Pot and the utils/constants modules are
not under src/; definitions derived from their spec description carry a
doc comment starting with "Modelled from the spec:".
-/

deriving instance DecidableEq for Except

/-- Truncating division toward zero, matching the JS `Math.trunc(a / b)`
underlying the JS remainder. -/
def jsTrunc (q : ℚ) : ℤ := q.num.tdiv (q.den : ℤ)

/-- The JS remainder a % b for numeric operands (sign of the dividend,
truncated quotient). For b = 0 JS yields NaN; that case is never hit by the
source, which only takes remainders by the positive small blind. -/
def jsMod (a b : ℚ) : ℚ := a - b * (jsTrunc (a / b) : ℚ)

/-- Modelled from the spec: HandRanker (utils.js, not under src) returns a
total-ordered rank; the engine also stores on it the seat index of its owner
(`showdownRank.playerIndex` in the source). We abstract the rank value as a
natural number, higher winning. -/
structure HandRank where
  value : ℕ
  playerIndex : ℕ
deriving DecidableEq

/-- Modelled from the spec: PlayerView (Player.js, not under src), the
attribute surface the engine reads and writes (spec section 6). -/
structure Player where
  id : ℕ
  stack : ℚ
  potCommitment : ℚ
  inGame : Bool
  isAllIn : Bool
  allowRaise : Bool
  actionState : String
  showdownRank : Option HandRank
deriving DecidableEq

/-- Modelled from the spec: Pot (Pot.js, not under src): open flag, amount
carried from previous action rounds, current-round amount, per-round
commitment amount, per-round commitment map, eligible players, and the
best-rank set assigned at showdown (spec section 3). -/
structure Pot where
  open_ : Bool
  prevARsAmount : ℚ
  currARAmount : ℚ
  playerCommitment : ℚ
  history : List (ℕ × ℚ)
  potentialWinners : List ℕ
  winHandRanks : List HandRank
deriving DecidableEq

/-- The PokerGame state fields (src/PokerGame.js constructor), minus card
state (deck, board, per-player hole cards) and the presentational
`winHandRanks` mirror, which no claim depends on. -/
structure PokerGame where
  initialized : Bool
  buyIn : ℚ
  smallBlind : ℚ
  bigBlind : ℚ
  players : List Player
  dealerIdx : ℕ
  smallBlindIdx : ℕ
  bigBlindIdx : ℕ
  turnIdx : ℕ
  numTurnIncrements : ℕ
  pots : List Pot
  actionRound : ℤ
  minRaise : ℚ
  previousBet : ℚ
  allowCheck : Bool
deriving DecidableEq

def defaultPlayer : Player :=
  { id := 0, stack := 0, potCommitment := 0, inGame := false, isAllIn := false,
    allowRaise := false, actionState := "", showdownRank := none }

def defaultPot : Pot :=
  { open_ := true, prevARsAmount := 0, currARAmount := 0, playerCommitment := 0,
    history := [], potentialWinners := [], winHandRanks := [] }

/-- `this.players[this.turnIdx]`; the default is only reached where the JS
value would be `undefined`. -/
def currentPlayer (g : PokerGame) : Player := g.players.getD g.turnIdx defaultPlayer

def totalPlayers (g : PokerGame) : ℕ := g.players.length

def numPlayersInGame (g : PokerGame) : ℕ := (g.players.filter (·.inGame)).length

def allInPlayersCounter (g : PokerGame) : ℕ := (g.players.filter (·.isAllIn)).length

/-- Sum of all player stacks. -/
def stackSum (ps : List Player) : ℚ := (ps.map (·.stack)).sum

/-- Sum over the pot ledger of carried-over plus current-round amounts. -/
def potsSum (pots : List Pot) : ℚ := (pots.map (fun pot => pot.prevARsAmount + pot.currARAmount)).sum

/-- Total chips on the table: stacks plus pot amounts (carried + current). -/
def chipTotal (g : PokerGame) : ℚ := stackSum g.players + potsSum g.pots

def potsPrevSum (g : PokerGame) : ℚ := (g.pots.map (·.prevARsAmount)).sum

/-- Modelled from the spec: constants.js is not under src; the exact buy-in
bound is immaterial to every claim. -/
def MAX_BUYIN_IN_CENTS : ℚ := 100000000

/-- Modelled from the spec: `ACTION_ROUNDS[this.actionRound]` with the map
from constants.js (not under src): -1 uninitialized, 0 pre-flop, 1 flop,
2 turn, 3 river; any other index reads as a JS `undefined`. -/
def actionRoundStr (g : PokerGame) : String :=
  if g.actionRound = -1 then "uninitialized"
  else if g.actionRound = 0 then "pre-flop"
  else if g.actionRound = 1 then "flop"
  else if g.actionRound = 2 then "turn"
  else if g.actionRound = 3 then "river"
  else "undefined"

/-- The messages of the source are interpolated template literals; we fix
representative texts (the source init message also uses a contraction and
prints the three values). Only the message of the illegal all-in branch,
which claim C6 is about, is kept verbatim. -/
def initErr : String := "Have not initialized buyIn, smallBlind, bigBlind"

def typeErr : String := "TypeError: cannot read property of undefined"

def roundNotEndedErr : String := "Round has not ended. Cannot organize pots."

def dealerNotEndedErr : String := "Dealer round has not ended."

def cannotRiverErr : String := "Cannot river at this point in the game."

/-- `setBuyIn` (src lines 68-75). -/
def setBuyIn (g : PokerGame) (val : ℚ) : PokerGame × Bool :=
  if val < 1 ∨ val > MAX_BUYIN_IN_CENTS then (g, false)
  else ({ g with buyIn := val }, true)

/-- `setSmallBlind` (src lines 83-99). -/
def setSmallBlind (g : PokerGame) (val : ℚ) : PokerGame × Bool :=
  if val ≤ 0 then (g, false)
  else if g.buyIn = -1 then (g, false)
  else if val > g.buyIn / 20 then (g, false)
  else ({ g with smallBlind := val, bigBlind := -1 }, true)

/-- `setBigBlind` (src lines 107-128). -/
def setBigBlind (g : PokerGame) (val : ℚ) : PokerGame × Bool :=
  if g.smallBlind = -1 then (g, false)
  else if val < g.smallBlind then (g, false)
  else if jsMod val g.smallBlind ≠ 0 then (g, false)
  else if val > g.buyIn / 20 then (g, false)
  else ({ g with bigBlind := val, initialized := true }, true)

/-- The empty game produced by the constructor (src lines 22-54), with one
fresh pot. -/
def newPokerGame : PokerGame :=
  { initialized := false, buyIn := -1, smallBlind := -1, bigBlind := -1,
    players := [], dealerIdx := 0, smallBlindIdx := 0, bigBlindIdx := 0,
    turnIdx := 0, numTurnIncrements := 0, pots := [defaultPot],
    actionRound := -1, minRaise := 0, previousBet := 0, allowCheck := false }

/-- Modelled from the spec: the Pot constructor `new Pot(this)` (Pot.js, not
under src) yields a single empty open pot whose eligible set holds the ids of
the players currently in the hand (spec sections 3 and 4.2). -/
def freshPot (g : PokerGame) : Pot :=
  { open_ := true, prevARsAmount := 0, currARAmount := 0, playerCommitment := 0,
    history := [], potentialWinners := (g.players.filter (·.inGame)).map (·.id),
    winHandRanks := [] }

/-- `resetPots` (src lines 547-549). -/
def resetPots (g : PokerGame) : PokerGame := { g with pots := [freshPot g] }

/-- Modelled from the spec: `pickBestHandRanks` of HandRanker (utils.js, not
under src) returns the subset of ranks tied for best (spec section 6). -/
def maxRankValue (l : List HandRank) : ℕ := l.foldl (fun m r => max m r.value) 0

/-- Modelled from the spec: the tie-break step; keeps exactly the ranks whose
value attains the maximum of the collection. -/
def pickBestHandRanks (l : List HandRank) : List HandRank :=
  l.filter (fun r => r.value == maxRankValue l)

/-- Modelled from the spec: the per-round commitment map of a pot records each
player id with the amount committed this round (spec section 3). -/
def updateHistory (h : List (ℕ × ℚ)) (pid : ℕ) (amt : ℚ) : List (ℕ × ℚ) :=
  if h.any (fun e => e.1 == pid) then
    h.map (fun e => if e.1 == pid then (e.1, e.2 + amt) else e)
  else h ++ [(pid, amt)]

/-- Modelled from the spec: a commitment lands in the open pot of the ledger
(spec section 4.2: one pot accepts new commitments, closed pots are frozen).
If no pot is open a fresh open pot receives it. The side-pot split that an
under-sized all-in triggers is not modelled: it only moves amounts between
pots of the ledger, which no claim under verification distinguishes. -/
def commitToFirstOpen (pots : List Pot) (pid : ℕ) (amt : ℚ) : List Pot :=
  match pots with
  | [] => [{ defaultPot with currARAmount := amt, history := [(pid, amt)],
                             potentialWinners := [pid] }]
  | pot :: rest =>
    if pot.open_ then
      { pot with currARAmount := pot.currARAmount + amt,
                 history := updateHistory pot.history pid amt } :: rest
    else pot :: commitToFirstOpen rest pid amt

/-- Modelled from the spec: PlayerView.apply_raise (spec section 6; Player.js
is not under src). A raise is a raise-to: the difference between the target
amount and the current commitment moves from the stack into the open pot; the
bet markers move to the raised amount and checking is cleared (spec 4.1). A
raise that consumes the whole stack is an all-in (spec 4.1 b1). -/
def playerRaise (g : PokerGame) (amt : ℚ) : PokerGame :=
  let p := currentPlayer g
  let moved := amt - p.potCommitment
  let p' := { p with stack := p.stack - moved, potCommitment := amt,
                     actionState := "raise",
                     isAllIn := if p.stack - moved = 0 then true else p.isAllIn }
  { g with players := g.players.set g.turnIdx p',
           pots := commitToFirstOpen g.pots p.id moved,
           previousBet := amt, minRaise := amt - g.previousBet,
           allowCheck := false }

/-- Modelled from the spec: PlayerView.apply_call (spec section 6): the caller
matches the previous bet, moving the difference into the open pot. -/
def playerCall (g : PokerGame) : PokerGame :=
  let p := currentPlayer g
  let moved := g.previousBet - p.potCommitment
  let p' := { p with stack := p.stack - moved, potCommitment := g.previousBet,
                     actionState := "call" }
  { g with players := g.players.set g.turnIdx p',
           pots := commitToFirstOpen g.pots p.id moved }

/-- Modelled from the spec: PlayerView.apply_fold (spec section 6): the player
leaves the hand and is removed from the eligible set of every pot
(spec section 4.2). -/
def playerFold (g : PokerGame) : PokerGame :=
  let p := currentPlayer g
  let p' := { p with inGame := false, actionState := "fold" }
  { g with players := g.players.set g.turnIdx p',
           pots := g.pots.map (fun pot =>
             { pot with potentialWinners := pot.potentialWinners.erase p.id }) }

/-- Modelled from the spec: PlayerView.apply_check (spec section 6). -/
def playerCheck (g : PokerGame) : PokerGame :=
  let p := currentPlayer g
  { g with players := g.players.set g.turnIdx { p with actionState := "check" } }

/-- Modelled from the spec: PlayerView.apply_all_in (spec section 6): the whole
remaining stack moves into the open pot and the all-in flag is set. The tag
set of spec section 3 names no dedicated all-in tag; the choice made here is
read by no verified claim. -/
def playerAllIn (g : PokerGame) : PokerGame :=
  let p := currentPlayer g
  let moved := p.stack
  let p' := { p with stack := 0, potCommitment := p.potCommitment + moved,
                     isAllIn := true, actionState := "all-in" }
  { g with players := g.players.set g.turnIdx p',
           pots := commitToFirstOpen g.pots p.id moved }

/-- `incrementTurn` (src lines 179-185) after its initialization guard. -/
def incrementTurnCore (g : PokerGame) : PokerGame :=
  { g with numTurnIncrements := g.numTurnIncrements + 1,
           turnIdx := (g.turnIdx + 1) % g.players.length }

/-- A seat is an active betting seat when its player is in the hand and not
all-in. -/
def activeSeat (ps : List Player) (i : ℕ) : Prop :=
  (ps.getD i defaultPlayer).inGame = true ∧ (ps.getD i defaultPlayer).isAllIn = false

def activeSeatB (ps : List Player) (i : ℕ) : Bool :=
  (ps.getD i defaultPlayer).inGame && !(ps.getD i defaultPlayer).isAllIn

/-- The skipping loop of `incrementTurnToNextPlayerInGame` (src lines 198-205),
fuel-bounded by the seat count exactly as the JS for-loop is. -/
def incTurnLoop : ℕ → PokerGame → List Player → PokerGame × List Player
  | 0, g, sk => (g, sk)
  | Nat.succ n, g, sk =>
    let p := currentPlayer g
    if p.inGame = false ∨ p.isAllIn = true then
      incTurnLoop n (incrementTurnCore g) (sk ++ [p])
    else (g, sk)

/-- `incrementTurnToNextPlayerInGame` (src lines 191-207) after its
initialization guard: one increment, then skip seats out of the hand or
all-in, at most once around the table. -/
def incTurnToNextCore (g : PokerGame) : PokerGame × List Player :=
  incTurnLoop g.players.length (incrementTurnCore g) []

/-- `incrementTurnToNextPlayerInGame` with its initialization guard. -/
def incrementTurnToNextPlayerInGame (g : PokerGame) : Except String (PokerGame × List Player) :=
  if g.initialized = false then .error initErr
  else .ok (incTurnToNextCore g)

/-- `dealerRoundEnded` (src lines 507-515): everyone except one seat carries a
fold tag or an empty tag. The JS comparison is against `totalPlayers - 1` over
JS numbers, hence the integer cast. -/
def dealerRoundEnded (g : PokerGame) : Bool :=
  let outOfGame := (g.players.filter (fun p => p.actionState == "fold" || p.actionState == "")).length
  (outOfGame : ℤ) == (g.players.length : ℤ) - 1

/-- `noRaiseScenarioCounter` (src lines 407-435). -/
def noRaiseScenarioCounter (g : PokerGame) : ℕ :=
  ((g.players.filter (·.inGame)).map (fun p =>
    if p.isAllIn && (p.actionState == "call" || p.actionState == " ") then 1
    else if p.actionState == "call" && !p.isAllIn then
      (if (g.pots.filter (·.open_)).all (fun pot => pot.potentialWinners.contains p.id) then 1 else 0)
    else if p.actionState == "check" then
      (if (g.players.filter (·.inGame)).all (fun q => q.actionState == "check") then 1 else 0)
    else 0)).sum

/-- `raiseScenarioCounter` (src lines 437-440). -/
def raiseScenarioCounter (g : PokerGame) : ℕ :=
  ((g.players.filter (·.inGame)).filter (fun p => p.actionState == "raise")).length

/-- `preFlopActionRoundEnded` (src lines 442-449). -/
def preFlopActionRoundEnded (g : PokerGame) : Bool :=
  actionRoundStr g == "pre-flop" &&
    ((g.smallBlind == g.bigBlind
        && (g.players.filter (fun p => p.inGame && p.id != g.bigBlindIdx && p.id != g.smallBlindIdx)).all
             (fun p => p.actionState == "call")
        && (g.players.getD g.smallBlindIdx defaultPlayer).actionState == "check"
        && (g.players.getD g.bigBlindIdx defaultPlayer).actionState == "check")
     || (g.smallBlind != g.bigBlind
        && (g.players.filter (fun p => p.inGame && p.id != g.bigBlindIdx)).all
             (fun p => p.actionState == "call")
        && (g.players.getD g.bigBlindIdx defaultPlayer).actionState == "check"))

/-- `actionRoundEnded` (src lines 457-464). -/
def actionRoundEnded (g : PokerGame) : Bool :=
  preFlopActionRoundEnded g
    || noRaiseScenarioCounter g == numPlayersInGame g
    || (raiseScenarioCounter g == 1 && (currentPlayer g).actionState == "raise")

/-- `actionRoundEndedViaAllInScenario` (src lines 471-483). When everyone but
one in-hand player is all-in the JS dereferences the found players id; a
failed find would be a TypeError, surfaced here as an error (it is proved
unreachable below). -/
def actionRoundEndedViaAllInScenario (g : PokerGame) : Except String Bool :=
  if g.initialized = false then .error initErr
  else if allInPlayersCounter g = numPlayersInGame g then .ok true
  else if (allInPlayersCounter g : ℤ) = (numPlayersInGame g : ℤ) - 1 then
    match g.players.find? (fun p => p.inGame && !p.isAllIn) with
    | some p => .ok (g.pots.all (fun pot => pot.potentialWinners.contains p.id))
    | none => .error typeErr
  else .ok false

/-- Modelled from the spec: `pot.hasAllInPlayer()` (Pot.js, not under src):
whether the eligible set of the pot contains an all-in player. The members of
the eligible set are seat indices throughout the source. -/
def hasAllInPlayer (g : PokerGame) (pot : Pot) : Bool :=
  pot.potentialWinners.any (fun i => (g.players.getD i defaultPlayer).isAllIn)

/-- The per-pot body of `organizePotsAfterRoundEnded` (src lines 372-382),
applied to open pots only. -/
def organizePot (g : PokerGame) (pot : Pot) : Pot :=
  if pot.open_ then
    { pot with open_ := !(hasAllInPlayer g pot),
               prevARsAmount := pot.prevARsAmount + pot.currARAmount,
               currARAmount := 0, playerCommitment := 0, history := [] }
  else pot

/-- `organizePotsAfterRoundEnded` (src lines 367-383). The guard evaluates the
three round-end predicates with JS short-circuiting, so the initialization
check inside the all-in predicate fires only when the dealer round has not
ended. -/
def organizePotsAfterRoundEnded (g : PokerGame) : Except String PokerGame :=
  if dealerRoundEnded g then .ok { g with pots := g.pots.map (organizePot g) }
  else
    match actionRoundEndedViaAllInScenario g with
    | .error e => .error e
    | .ok b =>
      if b || actionRoundEnded g then .ok { g with pots := g.pots.map (organizePot g) }
      else .error roundNotEndedErr

/-- `getDealerRoundInfoAndAssignWinnings` (src lines 529-545): fold-out
settlement. The winner is `players.find(player => player.inGame)`; on an empty
find the JS would dereference `undefined`. Only the carried-over amounts
(`prevARsAmount`) are summed into the winnings. -/
def getDealerRoundInfoAndAssignWinnings (g : PokerGame) : Except String (PokerGame × ℕ × ℚ) :=
  if g.initialized = false then .error initErr
  else if dealerRoundEnded g = false then .error dealerNotEndedErr
  else
    let i := g.players.findIdx (·.inGame)
    if i < g.players.length then
      let w := g.players.getD i defaultPlayer
      let winnings := potsPrevSum g
      let g' := { g with players := g.players.set i { w with stack := w.stack + winnings } }
      .ok (resetPots g', w.id, winnings)
    else .error typeErr

/-- The rank-assignment pass of the showdown (src lines 673-681): every
in-hand player receives `bestHandRank` of board plus hole cards, tagged with
the seat index. Card state is abstracted by the oracle `rankOf`, standing for
the composition of the external `bestHandRank` with the seats seven cards. -/
def assignRanksFrom (rankOf : ℕ → ℕ) : ℕ → List Player → List Player
  | _, [] => []
  | i, p :: rest =>
    (if p.inGame then { p with showdownRank := some ⟨rankOf i, i⟩ } else p)
      :: assignRanksFrom rankOf (i + 1) rest

/-- Crediting one seat with an amount (`this.players[rank.playerIndex].stack
+= winnings`, src line 703). An out-of-range index would be a JS TypeError;
it is a no-op here and excluded by the hypotheses of every theorem using it. -/
def creditAt (ps : List Player) (i : ℕ) (w : ℚ) : List Player :=
  match ps.get? i with
  | some p => ps.set i { p with stack := p.stack + w }
  | none => ps

/-- Crediting every winning rank of a pot (src lines 702-705). -/
def creditRanks (ps : List Player) (ranks : List HandRank) (w : ℚ) : List Player :=
  ranks.foldl (fun acc r => creditAt acc r.playerIndex w) ps

/-- The settlement loop over pots (src lines 696-706): per pot, the carried
amount divided by the number of winning ranks is credited to each winner, and
the pair (per-winner share, winner seat list) is appended to the result. -/
def settleLoop (ps : List Player) (pots : List Pot) : List Player × List (ℚ × List ℕ) :=
  pots.foldl (fun acc pot =>
    let w := pot.prevARsAmount / (pot.winHandRanks.length : ℚ)
    (creditRanks acc.1 pot.winHandRanks w,
     acc.2 ++ [(w, pot.winHandRanks.map (·.playerIndex))])) (ps, [])

/-- The per-pot winner selection of the showdown (src lines 687-690): the
ranks of the eligible players are collected and the tie-break step keeps the
best. A rank never assigned (an eligible seat that is not in the hand, which
the theorems exclude) falls back to a zero-value rank for that seat. -/
def assignWinHandRanks (ps : List Player) (pot : Pot) : Pot :=
  { pot with winHandRanks := pickBestHandRanks (pot.potentialWinners.map
      (fun pIdx => ((ps.getD pIdx defaultPlayer).showdownRank).getD ⟨0, pIdx⟩)) }

/-- `getShowdownInfoAndAssignWinnings` (src lines 666-710). The guard is
`validateInActionRound(river)`; line 670 then evaluates the all-in predicate
and discards it (its initialization throw cannot fire past the guard, and its
TypeError case is proved unreachable below). -/
def getShowdownInfoAndAssignWinnings (rankOf : ℕ → ℕ) (g : PokerGame) :
    Except String (PokerGame × List (ℚ × List ℕ)) :=
  if g.initialized = false then .error initErr
  else if actionRoundStr g ≠ "river" then .error cannotRiverErr
  else
    match actionRoundEndedViaAllInScenario g with
    | .error e => .error e
    | .ok _ =>
      let players1 := assignRanksFrom rankOf 0 g.players
      let pots1 := g.pots.map (assignWinHandRanks players1)
      let settled := settleLoop players1 pots1
      let g1 := { g with players := settled.1, pots := pots1 }
      .ok (resetPots g1, settled.2)

/-- `canCurrentPlayerCheck` (src lines 712-715) past its initialization
guard. -/
def canCurrentPlayerCheckB (g : PokerGame) : Bool := g.allowCheck

/-- `canCurrentPlayerCall` (src lines 717-736). The JS short-circuit means the
current player is only dereferenced when some seat carries a raise or SB tag,
so the TypeError of an out-of-range turn index fires only then. -/
def canCurrentPlayerCall (g : PokerGame) : Except String Bool :=
  if g.initialized = false then .error initErr
  else
    let raiseCounter := (g.players.filter (fun p => p.actionState == "raise" || p.actionState == "SB")).length
    if raiseCounter = 0 then .ok false
    else if g.players.length ≤ g.turnIdx then .error typeErr
    else if (currentPlayer g).actionState == "SB" && g.smallBlind == g.bigBlind then .ok false
    else .ok true

/-- `canCurrentPlayerRaise` (src lines 738-741). -/
def canCurrentPlayerRaise (g : PokerGame) : Except String Bool :=
  if g.initialized = false then .error initErr
  else if g.players.length ≤ g.turnIdx then .error typeErr
  else .ok (currentPlayer g).allowRaise

/-- The boolean body of `canCurrentPlayerRaiseBy` (src lines 743-765). -/
def canCurrentPlayerRaiseByB (g : PokerGame) (cents : ℚ) : Bool :=
  if !(currentPlayer g).allowRaise then false
  else if cents == (currentPlayer g).stack then true
  else if jsMod cents g.smallBlind != 0
          || cents < g.previousBet + g.minRaise
          || cents > (currentPlayer g).stack + (currentPlayer g).potCommitment then false
  else true

/-- `canCurrentPlayerRaiseBy` (src lines 743-765) with its initialization
guard and the TypeError of a missing current player. -/
def canCurrentPlayerRaiseBy (g : PokerGame) (cents : ℚ) : Except String Bool :=
  if g.initialized = false then .error initErr
  else if g.players.length ≤ g.turnIdx then .error typeErr
  else .ok (canCurrentPlayerRaiseByB g cents)

/-- The argument of `callCurrentPlayerAction`: `result.playerAction` with
`result.raiseAmount` for a raise. -/
inductive PlayerAction where
  | check : PlayerAction
  | call : PlayerAction
  | raise : ℚ → PlayerAction
  | fold : PlayerAction
  | allIn : PlayerAction
deriving DecidableEq

def cannotFoldErr (id : ℕ) : String :=
  "Current player (id: " ++ toString id ++ ") cannot fold bcz player not in game."

def cannotCallErr (id : ℕ) : String :=
  "Current player (id: " ++ toString id ++ ") cannot call"

def cannotRaiseErr (id : ℕ) : String :=
  "Current player (id: " ++ toString id ++ ") cannot raise"

def cannotRaiseByErr (id : ℕ) (amt : ℚ) : String :=
  "Current player (id: " ++ toString id ++ ") cannot raise by " ++ toString amt

def cannotCheckErr (id : ℕ) : String :=
  "Current player (id: " ++ toString id ++ ") cannot check"

/-- `callCurrentPlayerAction` (src lines 247-285). Every branch validates
before mutating; the message of the illegal all-in branch is the verbatim
source text, which names a fold. Branches dereferencing the current player
surface the JS TypeError of an out-of-range turn index. -/
def callCurrentPlayerAction (g : PokerGame) (a : PlayerAction) : Except String PokerGame :=
  match a with
  | .allIn =>
    if g.players.length ≤ g.turnIdx then .error typeErr
    else if (currentPlayer g).inGame = false then .error (cannotFoldErr (currentPlayer g).id)
    else .ok (playerAllIn g)
  | .call =>
    match canCurrentPlayerCall g with
    | .error e => .error e
    | .ok false => .error (cannotCallErr (currentPlayer g).id)
    | .ok true => .ok (playerCall g)
  | .raise amt =>
    match canCurrentPlayerRaise g with
    | .error e => .error e
    | .ok false => .error (cannotRaiseErr (currentPlayer g).id)
    | .ok true =>
      match canCurrentPlayerRaiseBy g amt with
      | .error e => .error e
      | .ok false => .error (cannotRaiseByErr (currentPlayer g).id amt)
      | .ok true => .ok (playerRaise g amt)
  | .fold =>
    if g.players.length ≤ g.turnIdx then .error typeErr
    else if (currentPlayer g).inGame = false then .error (cannotFoldErr (currentPlayer g).id)
    else .ok (playerFold g)
  | .check =>
    if g.initialized = false then .error initErr
    else if g.allowCheck = false then .error (cannotCheckErr (currentPlayer g).id)
    else if g.players.length ≤ g.turnIdx then .error typeErr
    else .ok (playerCheck g)

/-- `refreshAndIncActionRound` (src lines 555-585): clear per-round player
state, reset the bet markers, move the turn to the first in-hand seat after
the dealer, mark in-hand players as pending, and advance the action round. -/
def refreshAndIncActionRound (g : PokerGame) : Except String (PokerGame × List Player) :=
  if g.initialized = false then .error initErr
  else if actionRoundStr g = "river" then .error "Cannot refresh and increment action round consecutively more than 4 times without calling refreshDealerRound."
  else if actionRoundStr g = "uninitialized" then .error "Must call refreshDealerRound before calling refreshAndIncActionRound."
  else
    let players1 := g.players.map (fun p =>
      { p with potCommitment := 0, actionState := "", allowRaise := true })
    let g1 := { g with players := players1, previousBet := 0, minRaise := g.bigBlind,
                       allowCheck := true, turnIdx := g.dealerIdx }
    let stepped := incTurnToNextCore g1
    let players3 := stepped.1.players.map (fun p =>
      if p.inGame then { p with actionState := " " } else p)
    .ok ({ stepped.1 with players := players3, actionRound := g.actionRound + 1 }, stepped.2)

/-- The dealer-advance loop of `refreshDealerRound` (src lines 624-631),
fuel-bounded by the seat count exactly as the JS for-loop is. -/
def advanceDealer : ℕ → PokerGame → PokerGame
  | 0, g => g
  | Nat.succ n, g =>
    let g' := { g with dealerIdx := (g.dealerIdx + 1) % g.players.length }
    if (g'.players.getD g'.dealerIdx defaultPlayer).inGame then g'
    else advanceDealer n g'

/-- Sets the action tag of the current player (the SB/BB overrides of
`postBlinds`). -/
def setCurrentActionState (g : PokerGame) (s : String) : PokerGame :=
  { g with players := g.players.set g.turnIdx { currentPlayer g with actionState := s } }

/-- `postBlinds` (src lines 224-245) past its initialization guard: the small
blind posts as a forced raise and is tagged SB, the turn advances, the big
blind posts likewise, the turn advances again, and the bet markers settle on
the big blind with checking disallowed. -/
def postBlinds (g : PokerGame) : PokerGame :=
  let g1 := { g with minRaise := 0, previousBet := 0 }
  let g2 := playerRaise g1 g.smallBlind
  let g3 := setCurrentActionState g2 "SB"
  let g4 := { g3 with smallBlindIdx := (currentPlayer g3).id }
  let g5 := (incTurnToNextCore g4).1
  let g6 := { g5 with minRaise := 0, previousBet := 0 }
  let g7 := playerRaise g6 g.bigBlind
  let g8 := setCurrentActionState g7 "BB"
  let g9 := { g8 with bigBlindIdx := (currentPlayer g8).id }
  let g10 := (incTurnToNextCore g9).1
  { g10 with minRaise := g.bigBlind, previousBet := g.bigBlind, allowCheck := false }

/-- The per-player reset of `refreshDealerRound` (src lines 597-612): clear
per-hand state, rejoin the hand, then leave busted players (stack zero or
below the big blind) out of it. -/
def refreshPlayers (bb : ℚ) (ps : List Player) : List Player :=
  ps.map (fun p =>
    let q := { p with actionState := "", potCommitment := 0, inGame := true,
                      allowRaise := true, isAllIn := false,
                      showdownRank := (none : Option HandRank) }
    if q.stack = 0 ∨ q.stack < bb then { q with inGame := false } else q)

/-- `this.turnIdx = this.dealerIdx` (src line 643). -/
def setTurnToDealer (g : PokerGame) : PokerGame := { g with turnIdx := g.dealerIdx }

/-- The heads-up edge case of src lines 649-651: the small blind may check
when it equals the big blind. -/
def checkSBGrant (g : PokerGame) : PokerGame :=
  if (currentPlayer g).actionState == "SB" && g.smallBlind == g.bigBlind
  then { g with allowCheck := true } else g

/-- The tail of `refreshDealerRound` past the game-ended check (src lines
624-654): advance the dealer to the next in-hand seat, set the turn there,
advance it once and post blinds, then grant the heads-up SB = BB check. -/
def refreshDealerRoundTail (g2 : PokerGame) : PokerGame :=
  checkSBGrant (postBlinds
    ((incTurnToNextCore (setTurnToDealer (advanceDealer g2.players.length g2))).1))

/-- `refreshDealerRound` (src lines 591-654), minus the card handling (board
clear, deck rebuild, dealing), which moves no chips and is read by no claim.
Returns the gameEnded flag with the new state. -/
def refreshDealerRound (g : PokerGame) : Except String (Bool × PokerGame) :=
  if g.initialized = false then .error initErr
  else
    let g1 := resetPots { g with actionRound := 0 }
    let g2 := { g1 with players := refreshPlayers g.bigBlind g1.players }
    if numPlayersInGame g2 ≤ 1 then .ok (true, g2)
    else .ok (false, refreshDealerRoundTail g2)

theorem jsTrunc_intCast (k : ℤ) : jsTrunc (k : ℚ) = k := by
  simp [jsTrunc, Rat.num_intCast, Rat.den_intCast]

theorem jsMod_eq_zero_iff {a b : ℚ} (hb : b ≠ 0) :
    jsMod a b = 0 ↔ ∃ k : ℤ, a = (k : ℚ) * b := by
  constructor
  · intro h
    refine ⟨jsTrunc (a / b), ?_⟩
    unfold jsMod at h
    have : a = b * (jsTrunc (a / b) : ℚ) := by linarith
    linarith [this, mul_comm b (jsTrunc (a / b) : ℚ)]
  · rintro ⟨k, rfl⟩
    have hdiv : ((k : ℚ) * b) / b = (k : ℚ) := by field_simp
    unfold jsMod
    rw [hdiv, jsTrunc_intCast]
    ring

theorem stackSum_nil : stackSum [] = 0 := rfl

theorem stackSum_cons (p : Player) (t : List Player) :
    stackSum (p :: t) = p.stack + stackSum t := by
  simp [stackSum]

theorem getD_cons_succ (p : Player) (t : List Player) (n : ℕ) :
    (p :: t).getD (n + 1) defaultPlayer = t.getD n defaultPlayer := by
  simp [List.getD]

theorem stackSum_set (ps : List Player) (i : ℕ) (q : Player) (h : i < ps.length) :
    stackSum (ps.set i q) = stackSum ps - (ps.getD i defaultPlayer).stack + q.stack := by
  induction ps generalizing i with
  | nil => simp at h
  | cons p t ih =>
    cases i with
    | zero => simp [stackSum, List.getD]; ring
    | succ n =>
      have hn : n < t.length := by simpa using h
      simp only [List.set, stackSum_cons, getD_cons_succ]
      rw [ih n hn]
      ring

theorem stackSum_map_of_stack_eq (f : Player → Player) (h : ∀ p, (f p).stack = p.stack)
    (ps : List Player) : stackSum (ps.map f) = stackSum ps := by
  induction ps with
  | nil => rfl
  | cons p t ih => simp [stackSum_cons, ih, h p]

theorem potsSum_nil : potsSum [] = 0 := rfl

theorem potsSum_cons (pot : Pot) (t : List Pot) :
    potsSum (pot :: t) = (pot.prevARsAmount + pot.currARAmount) + potsSum t := by
  simp [potsSum]

theorem potsSum_commitToFirstOpen (pots : List Pot) (pid : ℕ) (amt : ℚ) :
    potsSum (commitToFirstOpen pots pid amt) = potsSum pots + amt := by
  induction pots with
  | nil => simp [commitToFirstOpen, potsSum, defaultPot]
  | cons pot t ih =>
    cases hop : pot.open_ with
    | true =>
      simp only [commitToFirstOpen, hop, if_true, potsSum_cons]
      ring
    | false =>
      simp only [commitToFirstOpen, hop, Bool.false_eq_true, if_false, potsSum_cons, ih]
      ring

theorem potsSum_map_of_amounts_eq (f : Pot → Pot)
    (h : ∀ pot, (f pot).prevARsAmount = pot.prevARsAmount ∧ (f pot).currARAmount = pot.currARAmount)
    (pots : List Pot) : potsSum (pots.map f) = potsSum pots := by
  induction pots with
  | nil => rfl
  | cons pot t ih => simp [potsSum_cons, ih, (h pot).1, (h pot).2]

theorem chipTotal_playerCall (g : PokerGame) (h : g.turnIdx < g.players.length) :
    chipTotal (playerCall g) = chipTotal g := by
  unfold chipTotal playerCall
  simp only
  rw [stackSum_set _ _ _ h, potsSum_commitToFirstOpen]
  unfold currentPlayer
  ring

theorem chipTotal_playerRaise (g : PokerGame) (amt : ℚ) (h : g.turnIdx < g.players.length) :
    chipTotal (playerRaise g amt) = chipTotal g := by
  unfold chipTotal playerRaise
  simp only
  rw [stackSum_set _ _ _ h, potsSum_commitToFirstOpen]
  unfold currentPlayer
  ring

theorem chipTotal_playerAllIn (g : PokerGame) (h : g.turnIdx < g.players.length) :
    chipTotal (playerAllIn g) = chipTotal g := by
  unfold chipTotal playerAllIn
  simp only
  rw [stackSum_set _ _ _ h, potsSum_commitToFirstOpen]
  unfold currentPlayer
  ring

theorem chipTotal_playerFold (g : PokerGame) (h : g.turnIdx < g.players.length) :
    chipTotal (playerFold g) = chipTotal g := by
  unfold chipTotal playerFold
  simp only
  rw [stackSum_set _ _ _ h]
  rw [potsSum_map_of_amounts_eq
    (fun pot => { pot with potentialWinners := pot.potentialWinners.erase (currentPlayer g).id })
    (fun pot => ⟨rfl, rfl⟩)]
  unfold currentPlayer
  ring

theorem chipTotal_playerCheck (g : PokerGame) (h : g.turnIdx < g.players.length) :
    chipTotal (playerCheck g) = chipTotal g := by
  unfold chipTotal playerCheck
  simp only
  rw [stackSum_set _ _ _ h]
  unfold currentPlayer
  ring

theorem activeSeatB_eq_true_iff (ps : List Player) (i : ℕ) :
    activeSeatB ps i = true ↔ activeSeat ps i := by
  simp [activeSeatB, activeSeat, Bool.and_eq_true, Bool.not_eq_true']

theorem incTurnLoop_players : ∀ (fuel : ℕ) (g : PokerGame) (sk : List Player),
    (incTurnLoop fuel g sk).1.players = g.players := by
  intro fuel
  induction fuel with
  | zero => intro g sk; rfl
  | succ n ih =>
    intro g sk
    unfold incTurnLoop
    by_cases hc : (currentPlayer g).inGame = false ∨ (currentPlayer g).isAllIn = true
    · simp only [hc, if_true]
      rw [ih]
      rfl
    · simp only [hc, if_false]

theorem incTurnLoop_pots : ∀ (fuel : ℕ) (g : PokerGame) (sk : List Player),
    (incTurnLoop fuel g sk).1.pots = g.pots := by
  intro fuel
  induction fuel with
  | zero => intro g sk; rfl
  | succ n ih =>
    intro g sk
    unfold incTurnLoop
    by_cases hc : (currentPlayer g).inGame = false ∨ (currentPlayer g).isAllIn = true
    · simp only [hc, if_true]
      rw [ih]
      rfl
    · simp only [hc, if_false]

theorem incTurnLoop_turnIdx_lt : ∀ (fuel : ℕ) (g : PokerGame) (sk : List Player),
    g.turnIdx < g.players.length → (incTurnLoop fuel g sk).1.turnIdx < g.players.length := by
  intro fuel
  induction fuel with
  | zero => intro g sk h; exact h
  | succ n ih =>
    intro g sk h
    unfold incTurnLoop
    by_cases hc : (currentPlayer g).inGame = false ∨ (currentPlayer g).isAllIn = true
    · simp only [hc, if_true]
      have hpos : 0 < g.players.length := Nat.lt_of_le_of_lt (Nat.zero_le _) h
      have := ih (incrementTurnCore g) (sk ++ [currentPlayer g])
        (by simpa [incrementTurnCore] using Nat.mod_lt _ hpos)
      simpa [incrementTurnCore] using this
    · simp only [hc, if_false]
      exact h

theorem chipTotal_incTurnToNextCore (g : PokerGame) :
    chipTotal (incTurnToNextCore g).1 = chipTotal g := by
  unfold chipTotal incTurnToNextCore
  rw [incTurnLoop_players, incTurnLoop_pots]
  rfl

theorem incTurnToNextCore_players (g : PokerGame) :
    (incTurnToNextCore g).1.players = g.players := by
  unfold incTurnToNextCore
  rw [incTurnLoop_players]
  rfl

theorem incTurnToNextCore_pots (g : PokerGame) :
    (incTurnToNextCore g).1.pots = g.pots := by
  unfold incTurnToNextCore
  rw [incTurnLoop_pots]
  rfl

theorem incTurnToNextCore_turnIdx_lt (g : PokerGame) (h : 0 < g.players.length) :
    (incTurnToNextCore g).1.turnIdx < (incTurnToNextCore g).1.players.length := by
  rw [incTurnToNextCore_players]
  unfold incTurnToNextCore
  exact incTurnLoop_turnIdx_lt _ _ _ (by simpa [incrementTurnCore] using Nat.mod_lt _ h)

/-- First betting-eligible offset: the least e with 1 ≤ e ≤ fuel landing on an
active seat e steps after t, found exactly as the skipping loop walks. -/
def faoAux (ps : List Player) (t : ℕ) : ℕ → ℕ → ℕ
  | 0, j => j
  | Nat.succ f, j =>
    if activeSeatB ps ((t + j) % ps.length) then j else faoAux ps t f (j + 1)

def firstActiveOffset (ps : List Player) (t : ℕ) : ℕ := faoAux ps t ps.length 1

theorem faoAux_spec (ps : List Player) (t : ℕ) :
    ∀ (f j : ℕ), (∃ e, j ≤ e ∧ e < j + f ∧ activeSeat ps ((t + e) % ps.length)) →
    activeSeat ps ((t + faoAux ps t f j) % ps.length) ∧
    j ≤ faoAux ps t f j ∧ faoAux ps t f j < j + f ∧
    ∀ e, j ≤ e → e < faoAux ps t f j → ¬ activeSeat ps ((t + e) % ps.length) := by
  intro f
  induction f with
  | zero =>
    rintro j ⟨e, he1, he2, _⟩
    omega
  | succ f ih =>
    intro j hex
    unfold faoAux
    by_cases hb : activeSeatB ps ((t + j) % ps.length) = true
    · simp only [hb, if_true]
      refine ⟨(activeSeatB_eq_true_iff ps _).1 hb, Nat.le_refl _, by omega, ?_⟩
      intro e h1 h2
      omega
    · simp only [Bool.not_eq_true] at hb
      simp only [hb, Bool.false_eq_true, if_false]
      have hnact : ¬ activeSeat ps ((t + j) % ps.length) := by
        intro hcon
        have := (activeSeatB_eq_true_iff ps ((t + j) % ps.length)).2 hcon
        rw [hb] at this
        exact absurd this (by decide)
      obtain ⟨e, he1, he2, he3⟩ := hex
      have hne : e ≠ j := by
        intro hcon
        exact hnact (hcon ▸ he3)
      have hrec := ih (j + 1) ⟨e, by omega, by omega, he3⟩
      refine ⟨hrec.1, by omega, by omega, ?_⟩
      intro e' h1 h2
      rcases Nat.eq_or_lt_of_le h1 with h | h
      · exact h ▸ hnact
      · exact hrec.2.2.2 e' (by omega) h2

theorem incTurnLoop_lands :
    ∀ (fuel : ℕ) (g : PokerGame) (sk : List Player) (d : ℕ),
    g.turnIdx < g.players.length → d < fuel →
    activeSeat g.players ((g.turnIdx + d) % g.players.length) →
    (∀ e, e < d → ¬ activeSeat g.players ((g.turnIdx + e) % g.players.length)) →
    (incTurnLoop fuel g sk).1.turnIdx = (g.turnIdx + d) % g.players.length := by
  intro fuel
  induction fuel with
  | zero =>
    intro g sk d _ hd _ _
    omega
  | succ n ih =>
    intro g sk d hlt hd hact hmin
    have hcur : currentPlayer g = g.players.getD g.turnIdx defaultPlayer := rfl
    have hmodself : g.turnIdx % g.players.length = g.turnIdx := Nat.mod_eq_of_lt hlt
    have hpos : 0 < g.players.length := Nat.lt_of_le_of_lt (Nat.zero_le _) hlt
    unfold incTurnLoop
    by_cases hc : (currentPlayer g).inGame = false ∨ (currentPlayer g).isAllIn = true
    · simp only [hc, if_true]
      have hnact : ¬ activeSeat g.players g.turnIdx := by
        rintro ⟨h1, h2⟩
        rw [hcur] at hc
        rcases hc with h | h
        · rw [h1] at h; exact absurd h (by decide)
        · rw [h2] at h; exact absurd h (by decide)
      cases d with
      | zero =>
        exfalso
        apply hnact
        have : (g.turnIdx + 0) % g.players.length = g.turnIdx := by
          simpa using hmodself
        rw [← this]
        exact hact
      | succ d' =>
        have hg' : (incrementTurnCore g).players = g.players := rfl
        have hg't : (incrementTurnCore g).turnIdx = (g.turnIdx + 1) % g.players.length := rfl
        have key : ∀ e, ((g.turnIdx + 1) % g.players.length + e) % g.players.length
            = (g.turnIdx + (e + 1)) % g.players.length := by
          intro e
          rw [Nat.mod_add_mod]
          congr 1
          omega
        have hres := ih (incrementTurnCore g) (sk ++ [currentPlayer g]) d'
          (by rw [hg't, hg']; exact Nat.mod_lt _ hpos)
          (by omega)
          (by rw [hg', hg't, key d']
              have : g.turnIdx + (d' + 1) = g.turnIdx + Nat.succ d' := by omega
              rw [this]
              exact hact)
          (by intro e he
              rw [hg', hg't, key e]
              exact hmin (e + 1) (by omega))
        rw [hres, hg', hg't, key d']
    · simp only [hc, if_false]
      have hactt : activeSeat g.players g.turnIdx := by
        push_neg at hc
        rw [hcur] at hc
        refine ⟨?_, ?_⟩
        · cases hin : (g.players.getD g.turnIdx defaultPlayer).inGame
          · exact absurd hin hc.1
          · rfl
        · cases hai : (g.players.getD g.turnIdx defaultPlayer).isAllIn
          · rfl
          · exact absurd hai hc.2
      cases d with
      | zero => simpa using hmodself.symm
      | succ d' =>
        exfalso
        apply hmin 0 (by omega)
        simpa [hmodself] using hactt

theorem exists_active_offset (ps : List Player) (t : ℕ)
    (hact : ps.any (fun p => p.inGame && !p.isAllIn) = true) :
    ∃ e, 1 ≤ e ∧ e < 1 + ps.length ∧ activeSeat ps ((t + e) % ps.length) := by
  obtain ⟨p, hp, hpa⟩ := List.any_eq_true.mp hact
  obtain ⟨i, hi, rfl⟩ := List.mem_iff_getElem.mp hp
  have hgetD : ps.getD i defaultPlayer = ps[i] := by
    rw [List.getD_eq_getElem?_getD, List.getElem?_eq_getElem hi]
    rfl
  have hiact : activeSeat ps i := by
    rw [Bool.and_eq_true, Bool.not_eq_true'] at hpa
    exact ⟨by rw [hgetD]; exact hpa.1, by rw [hgetD]; exact hpa.2⟩
  have hpos : 0 < ps.length := Nat.lt_of_le_of_lt (Nat.zero_le _) hi
  set r := t % ps.length with hr
  have hrlt : r < ps.length := Nat.mod_lt _ hpos
  by_cases hgt : r < i
  · refine ⟨i - r, by omega, by omega, ?_⟩
    have : (t + (i - r)) % ps.length = (r + (i - r)) % ps.length := by
      rw [hr, Nat.mod_add_mod]
    rw [this, show r + (i - r) = i by omega, Nat.mod_eq_of_lt hi]
    exact hiact
  · refine ⟨i + ps.length - r, by omega, by omega, ?_⟩
    have : (t + (i + ps.length - r)) % ps.length = (r + (i + ps.length - r)) % ps.length := by
      rw [hr, Nat.mod_add_mod]
    rw [this, show r + (i + ps.length - r) = i + ps.length by omega,
        Nat.add_mod_right, Nat.mod_eq_of_lt hi]
    exact hiact

/-- C7: in an initialized game with at least one in-hand, not-all-in seat,
`incrementTurnToNextPlayerInGame` lands the turn pointer on the first in-hand
not-all-in seat after the old one in cyclic index order (offset
`firstActiveOffset`, between 1 and the seat count), skipping only seats that
are out of the hand or all-in and never an active one. -/
theorem C7_turn_monotonicity (g : PokerGame)
    (hinit : g.initialized = true)
    (hact : g.players.any (fun p => p.inGame && !p.isAllIn) = true) :
    incrementTurnToNextPlayerInGame g = .ok (incTurnToNextCore g) ∧
    (incTurnToNextCore g).1.players = g.players ∧
    (incTurnToNextCore g).1.turnIdx
      = (g.turnIdx + firstActiveOffset g.players g.turnIdx) % g.players.length ∧
    1 ≤ firstActiveOffset g.players g.turnIdx ∧
    firstActiveOffset g.players g.turnIdx ≤ g.players.length ∧
    activeSeat g.players ((incTurnToNextCore g).1.turnIdx) ∧
    ∀ e, 1 ≤ e → e < firstActiveOffset g.players g.turnIdx →
      ¬ activeSeat g.players ((g.turnIdx + e) % g.players.length) := by
  have hex := exists_active_offset g.players g.turnIdx hact
  have hpos : 0 < g.players.length := by
    obtain ⟨e, _, he, _⟩ := hex
    by_contra hz
    push_neg at hz
    interval_cases h : g.players.length
    omega
  have hspec := faoAux_spec g.players g.turnIdx g.players.length 1
    (by obtain ⟨e, h1, h2, h3⟩ := hex; exact ⟨e, h1, by omega, h3⟩)
  set d := faoAux g.players g.turnIdx g.players.length 1 with hd
  have hfao : firstActiveOffset g.players g.turnIdx = d := rfl
  obtain ⟨hspec1, hspec2, hspec3, hspec4⟩ := hspec
  have hg1p : (incrementTurnCore g).players = g.players := rfl
  have hg1t : (incrementTurnCore g).turnIdx = (g.turnIdx + 1) % g.players.length := rfl
  have hlands := incTurnLoop_lands g.players.length (incrementTurnCore g) [] (d - 1)
    (by rw [hg1t, hg1p]; exact Nat.mod_lt _ hpos)
    (by omega)
    (by rw [hg1p, hg1t, Nat.mod_add_mod, show g.turnIdx + 1 + (d - 1) = g.turnIdx + d by omega]
        exact hspec1)
    (by intro e he
        rw [hg1p, hg1t, Nat.mod_add_mod, show g.turnIdx + 1 + e = g.turnIdx + (e + 1) by omega]
        exact hspec4 (e + 1) (by omega) (by omega))
  have hcore : (incTurnToNextCore g).1.turnIdx = (g.turnIdx + d) % g.players.length := by
    unfold incTurnToNextCore
    rw [show (incrementTurnCore g).players.length = g.players.length from rfl] at hlands
    rw [hlands, hg1t, Nat.mod_add_mod, show g.turnIdx + 1 + (d - 1) = g.turnIdx + d by omega]
  refine ⟨by unfold incrementTurnToNextPlayerInGame; rw [hinit]; simp, incTurnToNextCore_players g,
    by rw [hfao]; exact hcore, by rw [hfao]; omega, by rw [hfao]; omega, ?_, ?_⟩
  · rw [hcore]
    exact hspec1
  · intro e h1 h2
    rw [hfao] at h2
    exact hspec4 e h1 h2

theorem filter_length_le_filter {α : Type} (p q : α → Bool) (l : List α)
    (h : ∀ x ∈ l, p x = true → q x = true) :
    (l.filter p).length ≤ (l.filter q).length := by
  induction l with
  | nil => simp
  | cons x t ih =>
    have iht := ih (fun y hy hp => h y (List.mem_cons_of_mem _ hy) hp)
    by_cases hp : p x = true
    · have hq := h x (List.mem_cons_self _ _) hp
      rw [List.filter_cons_of_pos hp, List.filter_cons_of_pos hq,
          List.length_cons, List.length_cons]
      omega
    · rw [List.filter_cons_of_neg (by simpa using hp)]
      by_cases hq : q x = true
      · rw [List.filter_cons_of_pos hq, List.length_cons]
        omega
      · rw [List.filter_cons_of_neg (by simpa using hq)]
        exact iht

theorem allInScenario_find_isSome (g : PokerGame)
    (h : (allInPlayersCounter g : ℤ) = (numPlayersInGame g : ℤ) - 1) :
    (g.players.find? (fun p => p.inGame && !p.isAllIn)).isSome = true := by
  cases hf : g.players.find? (fun p => p.inGame && !p.isAllIn) with
  | some p => rfl
  | none =>
    exfalso
    have hall := List.find?_eq_none.mp hf
    have hmono : ∀ x ∈ g.players, x.inGame = true → x.isAllIn = true := by
      intro x hx hin
      have := hall x hx
      rw [Bool.and_eq_true, Bool.not_eq_true'] at this
      push_neg at this
      cases hai : x.isAllIn
      · exact absurd (this hin) (by simp [hai])
      · rfl
    have hle : numPlayersInGame g ≤ allInPlayersCounter g :=
      filter_length_le_filter _ _ _ hmono
    omega

theorem allInScenario_ok_of_init (g : PokerGame) (hinit : g.initialized = true) :
    ∃ b, actionRoundEndedViaAllInScenario g = .ok b := by
  unfold actionRoundEndedViaAllInScenario
  rw [hinit]
  simp only [Bool.true_eq_false, if_false]
  by_cases h1 : allInPlayersCounter g = numPlayersInGame g
  · exact ⟨true, by rw [if_pos h1]⟩
  · rw [if_neg h1]
    by_cases h2 : (allInPlayersCounter g : ℤ) = (numPlayersInGame g : ℤ) - 1
    · rw [if_pos h2]
      have := allInScenario_find_isSome g h2
      obtain ⟨p, hp⟩ := Option.isSome_iff_exists.mp this
      rw [hp]
      exact ⟨_, rfl⟩
    · rw [if_neg h2]
      exact ⟨false, rfl⟩

theorem actionRoundStr_river_iff (g : PokerGame) :
    actionRoundStr g = "river" ↔ g.actionRound = 3 := by
  unfold actionRoundStr
  split_ifs with h1 h2 h3 h4 h5
  · constructor
    · intro h; exact absurd h (by decide)
    · intro h; omega
  · constructor
    · intro h; exact absurd h (by decide)
    · intro h; omega
  · constructor
    · intro h; exact absurd h (by decide)
    · intro h; omega
  · constructor
    · intro h; exact absurd h (by decide)
    · intro h; omega
  · simp [h5]
  · constructor
    · intro h; exact absurd h (by decide)
    · intro h; omega

def exceptIsOk {α : Type} (e : Except String α) : Bool :=
  match e with
  | .ok _ => true
  | .error _ => false

/-- C10: the guard of `getShowdownInfoAndAssignWinnings` fails exactly when
the game is uninitialized or the action round is not the river; no
river-betting-ended condition enters, so the settlement runs even while river
betting is in progress. -/
theorem C10_showdown_guard (rankOf : ℕ → ℕ) (g : PokerGame) :
    exceptIsOk (getShowdownInfoAndAssignWinnings rankOf g)
      = (g.initialized && decide (g.actionRound = 3)) := by
  unfold getShowdownInfoAndAssignWinnings
  cases hi : g.initialized with
  | false =>
    simp only [hi, if_true, if_pos rfl]
    rfl
  | true =>
    simp only [hi, Bool.true_eq_false, if_false, Bool.true_and]
    by_cases hr : actionRoundStr g = "river"
    · rw [if_neg (by simpa using hr)]
      have h3 : g.actionRound = 3 := (actionRoundStr_river_iff g).mp hr
      obtain ⟨b, hb⟩ := allInScenario_ok_of_init g hi
      rw [hb]
      simp [exceptIsOk, h3]
    · rw [if_pos (by simpa using hr)]
      have h3 : ¬ g.actionRound = 3 := fun hc => hr ((actionRoundStr_river_iff g).mpr hc)
      simp [exceptIsOk, h3]

def w7p0 : Player :=
  { id := 0, stack := 1000, potCommitment := 0, inGame := true, isAllIn := false,
    allowRaise := true, actionState := " ", showdownRank := none }

def w7p1 : Player :=
  { id := 1, stack := 800, potCommitment := 0, inGame := false, isAllIn := false,
    allowRaise := true, actionState := "fold", showdownRank := none }

def w7p2 : Player :=
  { id := 2, stack := 600, potCommitment := 0, inGame := true, isAllIn := false,
    allowRaise := true, actionState := " ", showdownRank := none }

def w7State : PokerGame :=
  { newPokerGame with initialized := true, buyIn := 10000, smallBlind := 100,
                      bigBlind := 200, players := [w7p0, w7p1, w7p2], turnIdx := 0,
                      actionRound := 0 }

theorem C7_turn_monotonicity_witness :
    incrementTurnToNextPlayerInGame w7State = .ok (incTurnToNextCore w7State) ∧
    (incTurnToNextCore w7State).1.turnIdx
      = (w7State.turnIdx + firstActiveOffset w7State.players w7State.turnIdx)
          % w7State.players.length ∧
    activeSeat w7State.players ((incTurnToNextCore w7State).1.turnIdx) :=
  have h := C7_turn_monotonicity w7State (by decide) (by decide)
  ⟨h.1, h.2.2.1, h.2.2.2.2.2.1⟩

def c8Base : PokerGame :=
  { newPokerGame with initialized := true, buyIn := 10000, smallBlind := 100,
                      bigBlind := 100 }

/-- C8: the claim says buy-in, small blind and big blind are immutable once
all three are set; the setters of the source carry no initialization check, so
on an initialized game `setBuyIn` still succeeds and changes the buy-in, and
`setSmallBlind` still succeeds, changes the small blind and resets the big
blind to -1 while the game stays flagged initialized — contradicting both the
claim and the sources own comment that these constants remain the same once
initialized. -/
theorem C8_setters_mutate_after_init :
    c8Base.initialized = true ∧ c8Base.buyIn = 10000 ∧
    (setBuyIn c8Base 5000).2 = true ∧
    (setBuyIn c8Base 5000).1.buyIn = 5000 ∧
    (setBuyIn c8Base 5000).1.initialized = true ∧
    (setSmallBlind c8Base 50).2 = true ∧
    (setSmallBlind c8Base 50).1.smallBlind = 50 ∧
    (setSmallBlind c8Base 50).1.bigBlind = -1 ∧
    (setSmallBlind c8Base 50).1.initialized = true := by
  refine ⟨rfl, rfl, ?_, ?_, ?_, ?_, ?_, ?_, ?_⟩ <;> with_unfolding_all rfl

def c6Player : Player :=
  { id := 0, stack := 1000, potCommitment := 0, inGame := false, isAllIn := false,
    allowRaise := true, actionState := "fold", showdownRank := none }

def c6State : PokerGame :=
  { newPokerGame with initialized := true, buyIn := 10000, smallBlind := 100,
                      bigBlind := 200, players := [c6Player], turnIdx := 0,
                      actionRound := 0 }

/-- C6: an illegal all-in (current player not in the hand) throws without
mutating, but the error text of the all-in branch is the fold branchs
message verbatim, so the error does not identify the attempted action: the
all-in and fold rejections are indistinguishable. -/
theorem C6_allin_error_names_fold :
    callCurrentPlayerAction c6State .allIn
      = .error "Current player (id: 0) cannot fold bcz player not in game." ∧
    callCurrentPlayerAction c6State .fold
      = .error "Current player (id: 0) cannot fold bcz player not in game." := by
  constructor <;> rfl

theorem canCurrentPlayerRaiseByB_iff (g : PokerGame) (cents : ℚ) (hsb : g.smallBlind ≠ 0) :
    canCurrentPlayerRaiseByB g cents = true ↔
      ((currentPlayer g).allowRaise = true ∧
        (cents = (currentPlayer g).stack ∨
          ((∃ k : ℤ, cents = (k : ℚ) * g.smallBlind) ∧
            g.previousBet + g.minRaise ≤ cents ∧
            cents ≤ (currentPlayer g).stack + (currentPlayer g).potCommitment))) := by
  unfold canCurrentPlayerRaiseByB
  cases hA : (currentPlayer g).allowRaise with
  | false => simp [hA]
  | true =>
    simp only [hA, Bool.not_true, Bool.false_eq_true, if_false, true_and]
    by_cases hS : cents = (currentPlayer g).stack
    · simp [hS]
    · have hS' : (cents == (currentPlayer g).stack) = false := by
        simp [hS]
      simp only [hS', Bool.false_eq_true, if_false]
      rw [show ∀ b : Bool, ((if b = true then false else true) = true ↔ b = false) from
        by decide]
      simp only [Bool.or_eq_false_iff, bne_eq_false_iff_eq, decide_eq_false_iff_not,
        not_lt, hS, false_or]
      rw [jsMod_eq_zero_iff hsb]
      tauto

/-- C3 (amended): for the player holding the turn of an initialized game with
a nonzero small blind, a raise-to amount is accepted exactly when the raise
flag is set and the amount is either the full remaining stack, or an integer
multiple of the small blind (the source remainder test does not require the
multiple to be positive) that reaches previousBet + minRaise and does not
exceed stack + current commitment. -/
theorem C3_raise_by_legality (g : PokerGame) (cents : ℚ)
    (hinit : g.initialized = true) (hlen : g.turnIdx < g.players.length)
    (hsb : g.smallBlind ≠ 0) :
    canCurrentPlayerRaiseBy g cents = .ok true ↔
      ((currentPlayer g).allowRaise = true ∧
        (cents = (currentPlayer g).stack ∨
          ((∃ k : ℤ, cents = (k : ℚ) * g.smallBlind) ∧
            g.previousBet + g.minRaise ≤ cents ∧
            cents ≤ (currentPlayer g).stack + (currentPlayer g).potCommitment))) := by
  unfold canCurrentPlayerRaiseBy
  rw [hinit]
  simp only [Bool.true_eq_false, if_false, if_neg (by omega : ¬ g.players.length ≤ g.turnIdx)]
  rw [show (Except.ok (canCurrentPlayerRaiseByB g cents) = (.ok true : Except String Bool))
      ↔ canCurrentPlayerRaiseByB g cents = true from by
    constructor
    · intro h
      injection h
    · intro h
      rw [h]]
  exact canCurrentPlayerRaiseByB_iff g cents hsb

def c3Player : Player :=
  { id := 0, stack := 500, potCommitment := 0, inGame := true, isAllIn := false,
    allowRaise := true, actionState := " ", showdownRank := none }

/-- An initialized game before the first hand: the constructor leaves
previousBet = 0 and minRaise = 0, and initialization does not touch them. -/
def c3State : PokerGame :=
  { newPokerGame with initialized := true, buyIn := 10000, smallBlind := 100,
                      bigBlind := 100, players := [c3Player], turnIdx := 0 }

/-- C3 counterexample: with previousBet = minRaise = 0 (the state directly
after initialization) the source accepts a raise-to of 0 cents, which is
neither the full stack nor a positive multiple of the small blind, refuting
the claimed characterization at this input. -/
theorem C3_counterexample :
    canCurrentPlayerRaiseBy c3State 0 = .ok true ∧
    ¬ ((currentPlayer c3State).allowRaise = true ∧
        ((0 : ℚ) = (currentPlayer c3State).stack ∨
          ((∃ k : ℤ, 1 ≤ k ∧ (0 : ℚ) = (k : ℚ) * c3State.smallBlind) ∧
            c3State.previousBet + c3State.minRaise ≤ 0 ∧
            (0 : ℚ) ≤ (currentPlayer c3State).stack + (currentPlayer c3State).potCommitment))) := by
  constructor
  · with_unfolding_all rfl
  · rintro ⟨-, h | ⟨⟨k, hk1, hk2⟩, -, -⟩⟩
    · have hst : (currentPlayer c3State).stack = 500 := rfl
      rw [hst] at h
      norm_num at h
    · have hsb : c3State.smallBlind = 100 := rfl
      rw [hsb] at hk2
      have hk0 : (k : ℚ) = 0 := by
        by_contra hne
        exact mul_ne_zero hne (by norm_num) hk2.symm
      have hkz : k = 0 := by exact_mod_cast hk0
      omega

def w3Player : Player :=
  { id := 0, stack := 1000, potCommitment := 0, inGame := true, isAllIn := false,
    allowRaise := true, actionState := " ", showdownRank := none }

def w3State : PokerGame :=
  { newPokerGame with initialized := true, buyIn := 10000, smallBlind := 100,
                      bigBlind := 200, players := [w3Player], turnIdx := 0,
                      actionRound := 0, previousBet := 200, minRaise := 200 }

theorem C3_raise_by_legality_witness :
    canCurrentPlayerRaiseBy w3State 400 = .ok true ∧
    canCurrentPlayerRaiseBy w3State 1000 = .ok true ∧
    canCurrentPlayerRaiseBy w3State 300 = .ok false := by
  refine ⟨?_, ?_, ?_⟩
  · exact (C3_raise_by_legality w3State 400 rfl (by decide) (by norm_num [w3State, newPokerGame])).mpr
      ⟨rfl, Or.inr ⟨⟨4, by norm_num [w3State, newPokerGame]⟩,
        by norm_num [w3State, newPokerGame],
        by norm_num [w3State, newPokerGame, currentPlayer, c3Player, w3Player, List.getD]⟩⟩
  · exact (C3_raise_by_legality w3State 1000 rfl (by decide) (by norm_num [w3State, newPokerGame])).mpr
      ⟨rfl, Or.inl (by norm_num [w3State, newPokerGame, currentPlayer, w3Player, List.getD])⟩
  · with_unfolding_all rfl

/-- C4 (amended): the detector returns true iff the game is initialized and
either the count of all all-in players (whether or not still in the hand)
equals the in-hand count, or that count plus one equals the in-hand count and
the first in-hand non-all-in seat is a potential winner of every pot, open or
closed. -/
theorem C4_all_in_fast_forward (g : PokerGame) :
    actionRoundEndedViaAllInScenario g = .ok true ↔
      (g.initialized = true ∧
        (allInPlayersCounter g = numPlayersInGame g ∨
          (allInPlayersCounter g + 1 = numPlayersInGame g ∧
            ∃ p, g.players.find? (fun q => q.inGame && !q.isAllIn) = some p ∧
              ∀ pot ∈ g.pots, p.id ∈ pot.potentialWinners))) := by
  unfold actionRoundEndedViaAllInScenario
  cases hi : g.initialized with
  | false =>
    simp only [if_true, if_pos rfl]
    constructor
    · intro h
      exact absurd h (by simp)
    · rintro ⟨h, -⟩
      exact absurd h (by simp)
  | true =>
    simp only [Bool.true_eq_false, if_false, true_and]
    by_cases h1 : allInPlayersCounter g = numPlayersInGame g
    · rw [if_pos h1]
      simp [h1]
    · rw [if_neg h1]
      by_cases h2 : (allInPlayersCounter g : ℤ) = (numPlayersInGame g : ℤ) - 1
      · rw [if_pos h2]
        have hnum : allInPlayersCounter g + 1 = numPlayersInGame g := by omega
        obtain ⟨p0, hp0⟩ := Option.isSome_iff_exists.mp (allInScenario_find_isSome g h2)
        rw [hp0]
        dsimp only
        constructor
        · intro h
          have hall : g.pots.all (fun pot => pot.potentialWinners.contains p0.id) = true := by
            injection h
          refine Or.inr ⟨hnum, p0, rfl, ?_⟩
          intro pot hpot
          have := List.all_eq_true.mp hall pot hpot
          simpa [List.contains] using this
        · rintro (h | ⟨-, p, hp, hmem⟩)
          · exact absurd h h1
          · injection hp with hpp
            have hmem0 : ∀ pot ∈ g.pots, p0.id ∈ pot.potentialWinners := by
              rw [hpp]
              exact hmem
            have hall : g.pots.all (fun pot => pot.potentialWinners.contains p0.id) = true := by
              rw [List.all_eq_true]
              intro pot hpot
              simpa [List.contains] using hmem0 pot hpot
            rw [hall]
      · rw [if_neg h2]
        constructor
        · intro h
          exact absurd h (by simp)
        · rintro (h | ⟨h, -⟩)
          · exact absurd h h1
          · omega

def inHandAllInCount (g : PokerGame) : ℕ :=
  (g.players.filter (fun p => p.inGame && p.isAllIn)).length

/-- The all-in fast-forward condition as the claim words it: counting only
in-hand all-in players, and requiring the single in-hand non-all-in player to
be eligible in every OPEN pot only. Stated for comparison with the source
function. -/
def allInScenarioSpec (g : PokerGame) : Prop :=
  inHandAllInCount g = numPlayersInGame g ∨
    (inHandAllInCount g + 1 = numPlayersInGame g ∧
      ∀ p ∈ g.players, p.inGame = true → p.isAllIn = false →
        ∀ pot ∈ g.pots, pot.open_ = true → p.id ∈ pot.potentialWinners)

def c4p0 : Player :=
  { id := 0, stack := 0, potCommitment := 300, inGame := true, isAllIn := true,
    allowRaise := false, actionState := "raise", showdownRank := none }

def c4p1 : Player :=
  { id := 1, stack := 700, potCommitment := 300, inGame := true, isAllIn := false,
    allowRaise := true, actionState := "call", showdownRank := none }

def c4potA : Pot :=
  { open_ := false, prevARsAmount := 200, currARAmount := 0, playerCommitment := 0,
    history := [], potentialWinners := [0], winHandRanks := [] }

def c4potB : Pot :=
  { open_ := true, prevARsAmount := 0, currARAmount := 400, playerCommitment := 0,
    history := [(0, 200), (1, 200)], potentialWinners := [0, 1], winHandRanks := [] }

def c4State : PokerGame :=
  { newPokerGame with initialized := true, buyIn := 10000, smallBlind := 100,
                      bigBlind := 200, players := [c4p0, c4p1],
                      pots := [c4potA, c4potB], turnIdx := 1, actionRound := 1 }

/-- C4 counterexample: one in-hand all-in player out of two in hand, and the
non-all-in player is eligible in every open pot (the claimed condition holds),
but the source checks every pot including the closed side pot, where seat 1 is
not eligible, and returns false. -/
theorem C4_counterexample :
    allInScenarioSpec c4State ∧ actionRoundEndedViaAllInScenario c4State = .ok false := by
  constructor
  · refine Or.inr ⟨by decide, ?_⟩
    decide
  · with_unfolding_all rfl

theorem getD_map_of_lt {α β : Type} (f : α → β) (l : List α) (i : ℕ)
    (dA : α) (dB : β) (h : i < l.length) :
    (l.map f).getD i dB = f (l.getD i dA) := by
  rw [List.getD_eq_getElem?_getD, List.getD_eq_getElem?_getD, List.getElem?_map,
      List.getElem?_eq_getElem h]
  rfl

/-- The pure value of the all-in detector, defined for comparison with its
throwing embedding (the TypeError branch is unreachable, proved above). -/
def allInScenarioB (g : PokerGame) : Bool :=
  (allInPlayersCounter g == numPlayersInGame g)
    || ((allInPlayersCounter g + 1 == numPlayersInGame g)
        && (match g.players.find? (fun p => p.inGame && !p.isAllIn) with
            | some p => g.pots.all (fun pot => pot.potentialWinners.contains p.id)
            | none => false))

theorem allInScenarioE_eq_ok (g : PokerGame) (hinit : g.initialized = true) :
    actionRoundEndedViaAllInScenario g = .ok (allInScenarioB g) := by
  unfold actionRoundEndedViaAllInScenario allInScenarioB
  rw [hinit]
  simp only [Bool.true_eq_false, if_false]
  by_cases h1 : allInPlayersCounter g = numPlayersInGame g
  · rw [if_pos h1]
    have : (allInPlayersCounter g == numPlayersInGame g) = true := by
      simpa using h1
    rw [this, Bool.true_or]
  · rw [if_neg h1]
    have hb1 : (allInPlayersCounter g == numPlayersInGame g) = false := by
      simpa using h1
    rw [hb1, Bool.false_or]
    by_cases h2 : (allInPlayersCounter g : ℤ) = (numPlayersInGame g : ℤ) - 1
    · rw [if_pos h2]
      have hb2 : (allInPlayersCounter g + 1 == numPlayersInGame g) = true := by
        simp only [beq_iff_eq]
        omega
      rw [hb2, Bool.true_and]
      obtain ⟨p0, hp0⟩ := Option.isSome_iff_exists.mp (allInScenario_find_isSome g h2)
      rw [hp0]
    · rw [if_neg h2]
      have hb2 : (allInPlayersCounter g + 1 == numPlayersInGame g) = false := by
        simp only [beq_eq_false_iff_ne, ne_eq]
        omega
      rw [hb2, Bool.false_and]

/-- C9 (amended): organizePotsAfterRoundEnded throws the round-not-ended error
when the game is initialized and none of the three round-end conditions holds,
and throws an initialization error when the game is uninitialized and the
dealer round has not ended (even if another round-end condition holds);
otherwise it maps every open pot to a pot that is closed iff its eligible set
contains an all-in player, with the current-round amount folded into the
carried total and the per-round commitment amount and map cleared, while
every already-closed pot is left unchanged. -/
theorem C9_organize_pots (g : PokerGame) :
    (g.initialized = false → dealerRoundEnded g = false →
      organizePotsAfterRoundEnded g = .error initErr) ∧
    (g.initialized = true → dealerRoundEnded g = false → allInScenarioB g = false →
      actionRoundEnded g = false →
      organizePotsAfterRoundEnded g = .error roundNotEndedErr) ∧
    ((dealerRoundEnded g = true ∨
        (g.initialized = true ∧ (allInScenarioB g = true ∨ actionRoundEnded g = true))) →
      organizePotsAfterRoundEnded g = .ok { g with pots := g.pots.map (organizePot g) } ∧
      (g.pots.map (organizePot g)).length = g.pots.length ∧
      ∀ i, i < g.pots.length →
        (((g.pots.getD i defaultPot).open_ = false →
            (g.pots.map (organizePot g)).getD i defaultPot = g.pots.getD i defaultPot) ∧
         ((g.pots.getD i defaultPot).open_ = true →
            ((g.pots.map (organizePot g)).getD i defaultPot).open_
              = !(hasAllInPlayer g (g.pots.getD i defaultPot)) ∧
            ((g.pots.map (organizePot g)).getD i defaultPot).prevARsAmount
              = (g.pots.getD i defaultPot).prevARsAmount
                + (g.pots.getD i defaultPot).currARAmount ∧
            ((g.pots.map (organizePot g)).getD i defaultPot).currARAmount = 0 ∧
            ((g.pots.map (organizePot g)).getD i defaultPot).playerCommitment = 0 ∧
            ((g.pots.map (organizePot g)).getD i defaultPot).history = [] ∧
            ((g.pots.map (organizePot g)).getD i defaultPot).potentialWinners
              = (g.pots.getD i defaultPot).potentialWinners ∧
            ((g.pots.map (organizePot g)).getD i defaultPot).winHandRanks
              = (g.pots.getD i defaultPot).winHandRanks))) := by
  have hpotwise : ∀ i, i < g.pots.length →
      (((g.pots.getD i defaultPot).open_ = false →
          (g.pots.map (organizePot g)).getD i defaultPot = g.pots.getD i defaultPot) ∧
       ((g.pots.getD i defaultPot).open_ = true →
          ((g.pots.map (organizePot g)).getD i defaultPot).open_
            = !(hasAllInPlayer g (g.pots.getD i defaultPot)) ∧
          ((g.pots.map (organizePot g)).getD i defaultPot).prevARsAmount
            = (g.pots.getD i defaultPot).prevARsAmount
              + (g.pots.getD i defaultPot).currARAmount ∧
          ((g.pots.map (organizePot g)).getD i defaultPot).currARAmount = 0 ∧
          ((g.pots.map (organizePot g)).getD i defaultPot).playerCommitment = 0 ∧
          ((g.pots.map (organizePot g)).getD i defaultPot).history = [] ∧
          ((g.pots.map (organizePot g)).getD i defaultPot).potentialWinners
            = (g.pots.getD i defaultPot).potentialWinners ∧
          ((g.pots.map (organizePot g)).getD i defaultPot).winHandRanks
            = (g.pots.getD i defaultPot).winHandRanks)) := by
    intro i hi
    rw [getD_map_of_lt (organizePot g) g.pots i defaultPot defaultPot hi]
    set pot := g.pots.getD i defaultPot with hpot
    constructor
    · intro hop
      unfold organizePot
      rw [hop]
      simp
    · intro hop
      unfold organizePot
      rw [hop]
      simp
  refine ⟨?_, ?_, ?_⟩
  · intro hinit hdre
    unfold organizePotsAfterRoundEnded
    rw [hdre]
    simp only [Bool.false_eq_true, if_false]
    unfold actionRoundEndedViaAllInScenario
    rw [hinit]
    simp
  · intro hinit hdre hb hare
    unfold organizePotsAfterRoundEnded
    rw [hdre]
    simp only [Bool.false_eq_true, if_false]
    rw [allInScenarioE_eq_ok g hinit, hb, hare]
    rfl
  · intro hcond
    have hok : organizePotsAfterRoundEnded g = .ok { g with pots := g.pots.map (organizePot g) } := by
      unfold organizePotsAfterRoundEnded
      rcases hcond with hdre | ⟨hinit, hrest⟩
      · rw [hdre]
        simp
      · cases hdre : dealerRoundEnded g with
        | true => rfl
        | false =>
          simp only [Bool.false_eq_true, if_false]
          rw [allInScenarioE_eq_ok g hinit]
          rcases hrest with hb | hare
          · rw [hb]
            rfl
          · rw [hare]
            simp
    exact ⟨hok, by rw [List.length_map], hpotwise⟩

/-- C9 counterexample: on the freshly constructed (uninitialized, empty) game
the action-round-end condition holds (the no-raise counter and the in-hand
count are both zero) and the dealer round has not ended, yet the function
throws the initialization error instead of organizing the pots. -/
theorem C9_counterexample :
    actionRoundEnded newPokerGame = true ∧
    dealerRoundEnded newPokerGame = false ∧
    organizePotsAfterRoundEnded newPokerGame = .error initErr := by
  refine ⟨?_, ?_, ?_⟩
  · with_unfolding_all rfl
  · with_unfolding_all rfl
  · with_unfolding_all rfl

def w9p0 : Player :=
  { id := 0, stack := 0, potCommitment := 200, inGame := false, isAllIn := true,
    allowRaise := false, actionState := "fold", showdownRank := none }

def w9p1 : Player :=
  { id := 1, stack := 800, potCommitment := 200, inGame := true, isAllIn := false,
    allowRaise := true, actionState := " ", showdownRank := none }

def w9potOpen : Pot :=
  { open_ := true, prevARsAmount := 150, currARAmount := 250, playerCommitment := 200,
    history := [(0, 200), (1, 50)], potentialWinners := [0, 1], winHandRanks := [] }

def w9potClosed : Pot :=
  { open_ := false, prevARsAmount := 300, currARAmount := 0, playerCommitment := 0,
    history := [], potentialWinners := [0], winHandRanks := [] }

def w9State : PokerGame :=
  { newPokerGame with initialized := true, buyIn := 10000, smallBlind := 100,
                      bigBlind := 200, players := [w9p0, w9p1],
                      pots := [w9potOpen, w9potClosed], turnIdx := 1, actionRound := 0 }

theorem C9_organize_pots_witness :
    organizePotsAfterRoundEnded w9State
      = .ok { w9State with pots := w9State.pots.map (organizePot w9State) } ∧
    ((w9State.pots.map (organizePot w9State)).getD 0 defaultPot).prevARsAmount
      = (w9State.pots.getD 0 defaultPot).prevARsAmount
        + (w9State.pots.getD 0 defaultPot).currARAmount ∧
    ((w9State.pots.map (organizePot w9State)).getD 0 defaultPot).currARAmount = 0 ∧
    ((w9State.pots.map (organizePot w9State)).getD 0 defaultPot).history = [] ∧
    (w9State.pots.map (organizePot w9State)).getD 1 defaultPot
      = w9State.pots.getD 1 defaultPot := by
  have h := (C9_organize_pots w9State).2.2 (Or.inl (by with_unfolding_all rfl))
  have h0 := (h.2.2 0 (by decide)).2 (by with_unfolding_all rfl)
  have h1 := (h.2.2 1 (by decide)).1 (by with_unfolding_all rfl)
  exact ⟨h.1, h0.2.1, h0.2.2.1, h0.2.2.2.2.1, h1⟩

theorem getD_set_self {α : Type} (l : List α) (i : ℕ) (a d : α) (h : i < l.length) :
    (l.set i a).getD i d = a := by
  rw [List.getD_eq_getElem?_getD, List.getElem?_set]
  simp [h]

theorem getD_set_ne {α : Type} (l : List α) (i j : ℕ) (a d : α) (h : i ≠ j) :
    (l.set i a).getD j d = l.getD j d := by
  rw [List.getD_eq_getElem?_getD, List.getElem?_set_ne h, ← List.getD_eq_getElem?_getD]

/-- C5 (amended): with the game initialized, fold-out settlement throws when
the dealer round has not ended; when it has and an in-hand seat exists, the
returned winnings are the sum of the carried-over amounts only (current-round
commitments still sitting in the pots are discarded by the reset), that first
in-hand seat alone is credited, every other player is untouched, no showdown
rank is assigned, and the ledger resets to one empty open pot. -/
theorem C5_fold_out_settlement (g : PokerGame) (hinit : g.initialized = true) :
    (dealerRoundEnded g = false →
      getDealerRoundInfoAndAssignWinnings g = .error dealerNotEndedErr) ∧
    (dealerRoundEnded g = true → g.players.findIdx (·.inGame) < g.players.length →
      ∀ r, getDealerRoundInfoAndAssignWinnings g = .ok r →
        r.2.1 = (g.players.getD (g.players.findIdx (·.inGame)) defaultPlayer).id ∧
        r.2.2 = potsPrevSum g ∧
        r.1.players.length = g.players.length ∧
        (∀ j, j ≠ g.players.findIdx (·.inGame) →
          r.1.players.getD j defaultPlayer = g.players.getD j defaultPlayer) ∧
        (r.1.players.getD (g.players.findIdx (·.inGame)) defaultPlayer).stack
          = (g.players.getD (g.players.findIdx (·.inGame)) defaultPlayer).stack
            + potsPrevSum g ∧
        (r.1.players.getD (g.players.findIdx (·.inGame)) defaultPlayer).showdownRank
          = (g.players.getD (g.players.findIdx (·.inGame)) defaultPlayer).showdownRank ∧
        r.1.pots.length = 1 ∧
        (r.1.pots.getD 0 defaultPot).open_ = true ∧
        (r.1.pots.getD 0 defaultPot).prevARsAmount = 0 ∧
        (r.1.pots.getD 0 defaultPot).currARAmount = 0) := by
  constructor
  · intro hdre
    unfold getDealerRoundInfoAndAssignWinnings
    rw [hinit, hdre]
    simp
  · intro hdre hlen r hr
    unfold getDealerRoundInfoAndAssignWinnings at hr
    rw [hinit, hdre] at hr
    simp only [Bool.true_eq_false, if_false, if_neg (by simp : ¬ (true = false))] at hr
    rw [if_pos hlen] at hr
    set i := g.players.findIdx (·.inGame) with hi
    set w := g.players.getD i defaultPlayer with hw
    set winnings := potsPrevSum g with hwin
    injection hr with h1
    subst h1
    refine ⟨rfl, rfl, ?_, ?_, ?_, ?_, rfl, rfl, rfl, rfl⟩
    · simp [resetPots, List.length_set]
    · intro j hj
      show (g.players.set i { w with stack := w.stack + winnings }).getD j defaultPlayer
        = g.players.getD j defaultPlayer
      exact getD_set_ne _ _ _ _ _ (fun hc => hj (hc ▸ rfl))
    · show ((g.players.set i { w with stack := w.stack + winnings }).getD i defaultPlayer).stack
        = w.stack + winnings
      rw [getD_set_self _ _ _ _ hlen]
    · show ((g.players.set i { w with stack := w.stack + winnings }).getD i defaultPlayer).showdownRank
        = w.showdownRank
      rw [getD_set_self _ _ _ _ hlen]

def c5p0 : Player :=
  { id := 0, stack := 300, potCommitment := 100, inGame := false, isAllIn := false,
    allowRaise := true, actionState := "fold", showdownRank := none }

def c5p1 : Player :=
  { id := 1, stack := 400, potCommitment := 0, inGame := true, isAllIn := false,
    allowRaise := true, actionState := " ", showdownRank := none }

def c5Pot : Pot :=
  { open_ := true, prevARsAmount := 0, currARAmount := 100, playerCommitment := 100,
    history := [(0, 100)], potentialWinners := [1], winHandRanks := [] }

def c5State : PokerGame :=
  { newPokerGame with initialized := true, buyIn := 10000, smallBlind := 100,
                      bigBlind := 200, players := [c5p0, c5p1], pots := [c5Pot],
                      turnIdx := 1, actionRound := 0, previousBet := 100,
                      minRaise := 200 }

/-- C5 counterexample: every seat but one has folded and the single pot holds
100 cents of current-round commitment not yet folded into the carried total;
the source pays the winner the carried total only, so the returned winnings
are 0, the winners stack is unchanged, and the 100 cents vanish with the pot
reset — refuting carried-over plus current-round of the claim. -/
theorem C5_counterexample :
    dealerRoundEnded c5State = true ∧
    (c5State.pots.map (fun pot => pot.prevARsAmount + pot.currARAmount)).sum = 100 ∧
    (getDealerRoundInfoAndAssignWinnings c5State).toOption.map (fun r => r.2.2) = some 0 ∧
    (getDealerRoundInfoAndAssignWinnings c5State).toOption.map
        (fun r => (r.1.players.getD 1 defaultPlayer).stack) = some 400 := by
  refine ⟨?_, ?_, ?_, ?_⟩
  · with_unfolding_all rfl
  · with_unfolding_all rfl
  · with_unfolding_all rfl
  · with_unfolding_all rfl

def w5p0 : Player :=
  { id := 0, stack := 300, potCommitment := 0, inGame := false, isAllIn := false,
    allowRaise := true, actionState := "fold", showdownRank := none }

def w5p1 : Player :=
  { id := 1, stack := 400, potCommitment := 0, inGame := true, isAllIn := false,
    allowRaise := true, actionState := " ", showdownRank := none }

def w5Pot : Pot :=
  { open_ := true, prevARsAmount := 300, currARAmount := 0, playerCommitment := 0,
    history := [], potentialWinners := [1], winHandRanks := [] }

def w5State : PokerGame :=
  { newPokerGame with initialized := true, buyIn := 10000, smallBlind := 100,
                      bigBlind := 200, players := [w5p0, w5p1], pots := [w5Pot],
                      turnIdx := 1, actionRound := 0 }

def w5Result : PokerGame × ℕ × ℚ :=
  match getDealerRoundInfoAndAssignWinnings w5State with
  | .ok r => r
  | .error _ => (w5State, 0, 0)

theorem C5_fold_out_settlement_witness :
    getDealerRoundInfoAndAssignWinnings w5State = .ok w5Result ∧
    w5Result.2.2 = potsPrevSum w5State ∧
    (w5Result.1.players.getD (w5State.players.findIdx (·.inGame)) defaultPlayer).stack
      = (w5State.players.getD (w5State.players.findIdx (·.inGame)) defaultPlayer).stack
        + potsPrevSum w5State ∧
    w5Result.1.pots.length = 1 ∧
    (w5Result.1.pots.getD 0 defaultPot).prevARsAmount = 0 := by
  have hok : getDealerRoundInfoAndAssignWinnings w5State = .ok w5Result := by
    with_unfolding_all rfl
  have h := (C5_fold_out_settlement w5State rfl).2 (by with_unfolding_all rfl)
      (by with_unfolding_all decide) w5Result hok
  exact ⟨hok, h.2.1, h.2.2.2.2.1, h.2.2.2.2.2.2.1, h.2.2.2.2.2.2.2.2.1⟩

theorem getD_eq_getElem {α : Type} (l : List α) (i : ℕ) (d : α) (h : i < l.length) :
    l.getD i d = l[i] := by
  rw [List.getD_eq_getElem?_getD, List.getElem?_eq_getElem h]
  rfl

theorem creditAt_of_lt (ps : List Player) (i : ℕ) (w : ℚ) (h : i < ps.length) :
    creditAt ps i w
      = ps.set i { ps.getD i defaultPlayer with
                   stack := (ps.getD i defaultPlayer).stack + w } := by
  unfold creditAt
  rw [List.get?_eq_getElem?, List.getElem?_eq_getElem h, getD_eq_getElem ps i defaultPlayer h]

theorem length_creditAt (ps : List Player) (i : ℕ) (w : ℚ) :
    (creditAt ps i w).length = ps.length := by
  unfold creditAt
  cases h : ps.get? i with
  | none => rfl
  | some p => simp [List.length_set]

theorem stackSum_creditAt (ps : List Player) (i : ℕ) (w : ℚ) (h : i < ps.length) :
    stackSum (creditAt ps i w) = stackSum ps + w := by
  rw [creditAt_of_lt ps i w h, stackSum_set _ _ _ h]
  ring

theorem stack_getD_creditAt_self (ps : List Player) (i : ℕ) (w : ℚ) (h : i < ps.length) :
    ((creditAt ps i w).getD i defaultPlayer).stack = (ps.getD i defaultPlayer).stack + w := by
  rw [creditAt_of_lt ps i w h, getD_set_self _ _ _ _ h]

theorem getD_creditAt_ne (ps : List Player) (i j : ℕ) (w : ℚ) (h : j ≠ i) :
    (creditAt ps i w).getD j defaultPlayer = ps.getD j defaultPlayer := by
  unfold creditAt
  cases hg : ps.get? i with
  | none => rfl
  | some p => exact getD_set_ne _ _ _ _ _ (fun hc => h hc.symm)

theorem creditRanks_cons (ps : List Player) (r : HandRank) (t : List HandRank) (w : ℚ) :
    creditRanks ps (r :: t) w = creditRanks (creditAt ps r.playerIndex w) t w := rfl

theorem length_creditRanks (ranks : List HandRank) :
    ∀ (ps : List Player) (w : ℚ), (creditRanks ps ranks w).length = ps.length := by
  induction ranks with
  | nil => intro ps w; rfl
  | cons r t ih =>
    intro ps w
    rw [creditRanks_cons, ih, length_creditAt]

theorem stackSum_creditRanks (ranks : List HandRank) :
    ∀ (ps : List Player) (w : ℚ), (∀ r ∈ ranks, r.playerIndex < ps.length) →
    stackSum (creditRanks ps ranks w) = stackSum ps + (ranks.length : ℚ) * w := by
  induction ranks with
  | nil => intro ps w _; simp [creditRanks]
  | cons r t ih =>
    intro ps w hv
    rw [creditRanks_cons, ih _ w (fun q hq => by
      rw [length_creditAt]
      exact hv q (List.mem_cons_of_mem _ hq))]
    rw [stackSum_creditAt ps _ w (hv r (List.mem_cons_self _ _))]
    simp only [List.length_cons]
    push_cast
    ring

theorem stack_getD_creditRanks (ranks : List HandRank) :
    ∀ (ps : List Player) (w : ℚ) (j : ℕ), (∀ r ∈ ranks, r.playerIndex < ps.length) →
    (ranks.map (·.playerIndex)).Nodup →
    ((creditRanks ps ranks w).getD j defaultPlayer).stack
      = (ps.getD j defaultPlayer).stack
        + (if j ∈ ranks.map (·.playerIndex) then w else 0) := by
  induction ranks with
  | nil => intro ps w j _ _; simp [creditRanks]
  | cons r t ih =>
    intro ps w j hv hnd
    rw [List.map_cons, List.nodup_cons] at hnd
    have hvt : ∀ q ∈ t, q.playerIndex < (creditAt ps r.playerIndex w).length := by
      intro q hq
      rw [length_creditAt]
      exact hv q (List.mem_cons_of_mem _ hq)
    rw [creditRanks_cons, ih _ w j hvt hnd.2]
    by_cases hj : j = r.playerIndex
    · subst hj
      rw [if_neg hnd.1,
          stack_getD_creditAt_self ps r.playerIndex w (hv r (List.mem_cons_self _ _))]
      have hmem : r.playerIndex ∈ (r :: t).map (·.playerIndex) := by
        rw [List.map_cons]
        exact List.mem_cons_self _ _
      rw [if_pos hmem]
      ring
    · rw [getD_creditAt_ne ps _ j w hj]
      have hiff : (j ∈ (r :: t).map (·.playerIndex)) ↔ (j ∈ t.map (·.playerIndex)) := by
        rw [List.map_cons, List.mem_cons]
        constructor
        · rintro (h | h)
          · exact absurd h hj
          · exact h
        · exact Or.inr
      by_cases hm : j ∈ t.map (·.playerIndex)
      · rw [if_pos hm, if_pos (hiff.mpr hm)]
      · rw [if_neg hm, if_neg (fun hc => hm (hiff.mp hc))]

def potShareOf (pot : Pot) : ℚ := pot.prevARsAmount / (pot.winHandRanks.length : ℚ)

def potWinnersOf (pot : Pot) : List ℕ := pot.winHandRanks.map (·.playerIndex)

/-- The players component of the settlement loop. -/
def creditPlayersLoop (ps : List Player) (pots : List Pot) : List Player :=
  pots.foldl (fun q pot => creditRanks q pot.winHandRanks (potShareOf pot)) ps

theorem settleLoop_eq (pots : List Pot) : ∀ (ps : List Player) (acc : List (ℚ × List ℕ)),
    List.foldl (fun acc pot =>
      let w := pot.prevARsAmount / (pot.winHandRanks.length : ℚ)
      (creditRanks acc.1 pot.winHandRanks w,
       acc.2 ++ [(w, pot.winHandRanks.map (·.playerIndex))])) (ps, acc) pots
      = (creditPlayersLoop ps pots,
         acc ++ pots.map (fun pot => (potShareOf pot, potWinnersOf pot))) := by
  induction pots with
  | nil => intro ps acc; simp [creditPlayersLoop]
  | cons pot t ih =>
    intro ps acc
    rw [List.foldl_cons, ih]
    simp [creditPlayersLoop, potShareOf, potWinnersOf]

theorem settleLoop_spec (ps : List Player) (pots : List Pot) :
    settleLoop ps pots
      = (creditPlayersLoop ps pots,
         pots.map (fun pot => (potShareOf pot, potWinnersOf pot))) := by
  unfold settleLoop
  rw [settleLoop_eq pots ps []]
  rfl

theorem length_creditPlayersLoop (pots : List Pot) :
    ∀ ps : List Player, (creditPlayersLoop ps pots).length = ps.length := by
  induction pots with
  | nil => intro ps; rfl
  | cons pot t ih =>
    intro ps
    show (creditPlayersLoop (creditRanks ps pot.winHandRanks (potShareOf pot)) t).length
      = ps.length
    rw [ih, length_creditRanks]

theorem stackSum_creditPlayersLoop (pots : List Pot) :
    ∀ ps : List Player,
    (∀ pot ∈ pots, ∀ r ∈ pot.winHandRanks, r.playerIndex < ps.length) →
    stackSum (creditPlayersLoop ps pots)
      = stackSum ps
        + (pots.map (fun pot => (pot.winHandRanks.length : ℚ) * potShareOf pot)).sum := by
  induction pots with
  | nil => intro ps _; simp [creditPlayersLoop]
  | cons pot t ih =>
    intro ps hv
    show stackSum (creditPlayersLoop (creditRanks ps pot.winHandRanks (potShareOf pot)) t)
      = stackSum ps + _
    rw [ih _ (fun q hq r hr => by
      rw [length_creditRanks]
      exact hv q (List.mem_cons_of_mem _ hq) r hr)]
    rw [stackSum_creditRanks _ _ _ (hv pot (List.mem_cons_self _ _))]
    simp only [List.map_cons, List.sum_cons]
    ring

theorem stack_getD_creditPlayersLoop (pots : List Pot) :
    ∀ (ps : List Player) (j : ℕ),
    (∀ pot ∈ pots, (∀ r ∈ pot.winHandRanks, r.playerIndex < ps.length) ∧
      (pot.winHandRanks.map (·.playerIndex)).Nodup) →
    ((creditPlayersLoop ps pots).getD j defaultPlayer).stack
      = (ps.getD j defaultPlayer).stack
        + (pots.map (fun pot => if j ∈ potWinnersOf pot then potShareOf pot else 0)).sum := by
  induction pots with
  | nil => intro ps j _; simp [creditPlayersLoop]
  | cons pot t ih =>
    intro ps j hv
    show ((creditPlayersLoop (creditRanks ps pot.winHandRanks (potShareOf pot)) t).getD j
        defaultPlayer).stack = _
    rw [ih _ j (fun q hq => by
      constructor
      · intro r hr
        rw [length_creditRanks]
        exact (hv q (List.mem_cons_of_mem _ hq)).1 r hr
      · exact (hv q (List.mem_cons_of_mem _ hq)).2)]
    rw [stack_getD_creditRanks _ _ _ j (hv pot (List.mem_cons_self _ _)).1
      (hv pot (List.mem_cons_self _ _)).2]
    simp only [List.map_cons, List.sum_cons, potWinnersOf]
    ring

theorem length_assignRanksFrom (rankOf : ℕ → ℕ) :
    ∀ (i : ℕ) (ps : List Player), (assignRanksFrom rankOf i ps).length = ps.length := by
  intro i ps
  induction ps generalizing i with
  | nil => rfl
  | cons p t ih =>
    unfold assignRanksFrom
    simp [ih]

theorem getD_assignRanksFrom (rankOf : ℕ → ℕ) :
    ∀ (ps : List Player) (i0 j : ℕ), j < ps.length →
    (assignRanksFrom rankOf i0 ps).getD j defaultPlayer
      = (if (ps.getD j defaultPlayer).inGame then
          { ps.getD j defaultPlayer with
            showdownRank := some ⟨rankOf (i0 + j), i0 + j⟩ }
        else ps.getD j defaultPlayer) := by
  intro ps
  induction ps with
  | nil => intro i0 j h; simp at h
  | cons p t ih =>
    intro i0 j h
    cases j with
    | zero =>
      simp only [assignRanksFrom, List.getD_cons_zero, Nat.add_zero]
    | succ n =>
      have hn : n < t.length := by simpa using h
      simp only [assignRanksFrom, List.getD_cons_succ]
      rw [ih (i0 + 1) n hn]
      have : i0 + 1 + n = i0 + (n + 1) := by omega
      rw [this]

theorem stack_getD_assignRanksFrom (rankOf : ℕ → ℕ) (ps : List Player) (i0 j : ℕ)
    (h : j < ps.length) :
    ((assignRanksFrom rankOf i0 ps).getD j defaultPlayer).stack
      = (ps.getD j defaultPlayer).stack := by
  rw [getD_assignRanksFrom rankOf ps i0 j h]
  by_cases hin : (ps.getD j defaultPlayer).inGame
  · rw [if_pos hin]
  · rw [if_neg hin]

theorem stackSum_assignRanksFrom (rankOf : ℕ → ℕ) :
    ∀ (i : ℕ) (ps : List Player), stackSum (assignRanksFrom rankOf i ps) = stackSum ps := by
  intro i ps
  induction ps generalizing i with
  | nil => rfl
  | cons p t ih =>
    unfold assignRanksFrom
    by_cases hin : p.inGame
    · rw [if_pos hin, stackSum_cons, stackSum_cons, ih]
    · rw [if_neg hin, stackSum_cons, stackSum_cons, ih]

theorem foldlMax_init_or_mem (l : List HandRank) :
    ∀ a : ℕ, l.foldl (fun m r => max m r.value) a = a ∨
      ∃ r ∈ l, l.foldl (fun m r => max m r.value) a = r.value := by
  induction l with
  | nil => intro a; exact Or.inl rfl
  | cons x t ih =>
    intro a
    rw [List.foldl_cons]
    rcases ih (max a x.value) with h | ⟨r, hr, he⟩
    · rcases max_choice a x.value with hm | hm
      · exact Or.inl (by rw [h, hm])
      · exact Or.inr ⟨x, List.mem_cons_self _ _, by rw [h, hm]⟩
    · exact Or.inr ⟨r, List.mem_cons_of_mem _ hr, he⟩

theorem exists_mem_maxRankValue (l : List HandRank) (h : l ≠ []) :
    ∃ r ∈ l, r.value = maxRankValue l := by
  cases l with
  | nil => exact absurd rfl h
  | cons x t =>
    unfold maxRankValue
    rw [List.foldl_cons]
    have hz : max 0 x.value = x.value := Nat.zero_max _
    rw [hz]
    rcases foldlMax_init_or_mem t x.value with hf | ⟨r, hr, he⟩
    · exact ⟨x, List.mem_cons_self _ _, hf.symm⟩
    · exact ⟨r, List.mem_cons_of_mem _ hr, he.symm⟩

theorem pickBest_ne_nil (l : List HandRank) (h : l ≠ []) : pickBestHandRanks l ≠ [] := by
  obtain ⟨r, hr, hv⟩ := exists_mem_maxRankValue l h
  have : r ∈ pickBestHandRanks l := by
    unfold pickBestHandRanks
    rw [List.mem_filter]
    exact ⟨hr, by simpa using hv⟩
  exact List.ne_nil_of_mem this

theorem mem_of_mem_pickBest {l : List HandRank} {r : HandRank}
    (h : r ∈ pickBestHandRanks l) : r ∈ l := by
  unfold pickBestHandRanks at h
  exact (List.mem_filter.mp h).1

theorem pickBest_map_sublist (l : List HandRank) (f : HandRank → ℕ) :
    ((pickBestHandRanks l).map f).Sublist (l.map f) :=
  List.Sublist.map f (List.filter_sublist l)

theorem length_pickBest_pos (l : List HandRank) (h : l ≠ []) :
    0 < (pickBestHandRanks l).length :=
  List.length_pos.mpr (pickBest_ne_nil l h)

/-- The rank collection a pot sees at showdown: each eligible seat with the
rank the oracle assigns it. -/
def showdownRanksOf (rankOf : ℕ → ℕ) (pot : Pot) : List HandRank :=
  pot.potentialWinners.map (fun j => ⟨rankOf j, j⟩)

def showdownPotWinners (rankOf : ℕ → ℕ) (pot : Pot) : List ℕ :=
  (pickBestHandRanks (showdownRanksOf rankOf pot)).map (·.playerIndex)

def showdownPotShare (rankOf : ℕ → ℕ) (pot : Pot) : ℚ :=
  pot.prevARsAmount / ((showdownPotWinners rankOf pot).length : ℚ)

def showdownSharesSum (rankOf : ℕ → ℕ) (pots : List Pot) (j : ℕ) : ℚ :=
  (pots.map (fun pot =>
    if j ∈ showdownPotWinners rankOf pot then showdownPotShare rankOf pot else 0)).sum

theorem map_playerIndex_showdownRanksOf (rankOf : ℕ → ℕ) (pot : Pot) :
    (showdownRanksOf rankOf pot).map (·.playerIndex) = pot.potentialWinners := by
  unfold showdownRanksOf
  rw [List.map_map]
  show pot.potentialWinners.map (fun j => j) = pot.potentialWinners
  exact List.map_id _

theorem assignWinHandRanks_eq (g : PokerGame) (rankOf : ℕ → ℕ) (pot : Pot)
    (hpw : ∀ j ∈ pot.potentialWinners, j < g.players.length ∧
      (g.players.getD j defaultPlayer).inGame = true) :
    assignWinHandRanks (assignRanksFrom rankOf 0 g.players) pot
      = { pot with winHandRanks := pickBestHandRanks (showdownRanksOf rankOf pot) } := by
  unfold assignWinHandRanks showdownRanksOf
  have hmap : pot.potentialWinners.map (fun pIdx =>
      (((assignRanksFrom rankOf 0 g.players).getD pIdx defaultPlayer).showdownRank).getD
        ⟨0, pIdx⟩)
      = pot.potentialWinners.map (fun j => (⟨rankOf j, j⟩ : HandRank)) := by
    apply List.map_congr_left
    intro j hj
    obtain ⟨hlt, hin⟩ := hpw j hj
    rw [getD_assignRanksFrom rankOf g.players 0 j hlt, if_pos hin]
    simp
  rw [hmap]

theorem showdown_eval (rankOf : ℕ → ℕ) (g : PokerGame)
    (hinit : g.initialized = true) (h3 : g.actionRound = 3) :
    getShowdownInfoAndAssignWinnings rankOf g
      = .ok (resetPots { g with
            players := (settleLoop (assignRanksFrom rankOf 0 g.players)
              (g.pots.map (assignWinHandRanks (assignRanksFrom rankOf 0 g.players)))).1,
            pots := g.pots.map (assignWinHandRanks (assignRanksFrom rankOf 0 g.players)) },
          (settleLoop (assignRanksFrom rankOf 0 g.players)
            (g.pots.map (assignWinHandRanks (assignRanksFrom rankOf 0 g.players)))).2) := by
  unfold getShowdownInfoAndAssignWinnings
  rw [hinit]
  have hr : actionRoundStr g = "river" := (actionRoundStr_river_iff g).mpr h3
  rw [if_neg (by simp : ¬ (true = false)), if_neg (by simp [hr]),
      allInScenarioE_eq_ok g hinit]

theorem potShareOf_pickBest (rankOf : ℕ → ℕ) (pot : Pot) :
    potShareOf { pot with winHandRanks := pickBestHandRanks (showdownRanksOf rankOf pot) }
      = showdownPotShare rankOf pot := by
  unfold potShareOf showdownPotShare showdownPotWinners
  rw [List.length_map]

/-- C2 (amended): at the river of an initialized game whose pots all have
nonempty, duplicate-free eligible sets of valid in-hand seats, the showdown
credits, per pot in ledger order, each tied-best eligible seat with the pots
carried-over amount divided EXACTLY (the JS / carries no flooring) by the
number of tied winners, and returns that per-winner share with the winner
list; a seats final stack is its old stack plus the sum of its shares. The
share is a whole number of cents only when the pot divides evenly. -/
theorem C2_showdown_settlement (g : PokerGame) (rankOf : ℕ → ℕ)
    (hinit : g.initialized = true) (h3 : g.actionRound = 3)
    (hp : ∀ pot ∈ g.pots, pot.potentialWinners ≠ [] ∧ pot.potentialWinners.Nodup ∧
      ∀ j ∈ pot.potentialWinners, j < g.players.length ∧
        (g.players.getD j defaultPlayer).inGame = true) :
    ∀ res, getShowdownInfoAndAssignWinnings rankOf g = .ok res →
      res.2 = g.pots.map (fun pot =>
        (showdownPotShare rankOf pot, showdownPotWinners rankOf pot)) ∧
      ∀ j, j < g.players.length →
        (res.1.players.getD j defaultPlayer).stack
          = (g.players.getD j defaultPlayer).stack + showdownSharesSum rankOf g.pots j := by
  intro res hres
  rw [showdown_eval rankOf g hinit h3] at hres
  injection hres with h1
  subst h1
  have hpots1 : g.pots.map (assignWinHandRanks (assignRanksFrom rankOf 0 g.players))
      = g.pots.map (fun pot =>
          { pot with winHandRanks := pickBestHandRanks (showdownRanksOf rankOf pot) }) := by
    apply List.map_congr_left
    intro pot hpot
    exact assignWinHandRanks_eq g rankOf pot (hp pot hpot).2.2
  constructor
  · show (settleLoop (assignRanksFrom rankOf 0 g.players)
      (g.pots.map (assignWinHandRanks (assignRanksFrom rankOf 0 g.players)))).2 = _
    rw [hpots1, settleLoop_spec, List.map_map]
    apply List.map_congr_left
    intro pot hpot
    show (potShareOf _, potWinnersOf _) = _
    rw [potShareOf_pickBest]
    rfl
  · intro j hj
    show ((settleLoop (assignRanksFrom rankOf 0 g.players)
        (g.pots.map (assignWinHandRanks (assignRanksFrom rankOf 0 g.players)))).1.getD j
          defaultPlayer).stack = _
    rw [hpots1, settleLoop_spec]
    have hlen1 : (assignRanksFrom rankOf 0 g.players).length = g.players.length :=
      length_assignRanksFrom rankOf 0 g.players
    have hv : ∀ pot1 ∈ g.pots.map (fun pot =>
        { pot with winHandRanks := pickBestHandRanks (showdownRanksOf rankOf pot) }),
        (∀ r ∈ pot1.winHandRanks,
          r.playerIndex < (assignRanksFrom rankOf 0 g.players).length) ∧
        (pot1.winHandRanks.map (·.playerIndex)).Nodup := by
      intro pot1 hpot1
      obtain ⟨pot, hpot, rfl⟩ := List.mem_map.mp hpot1
      constructor
      · intro r hr
        have hmem : r ∈ showdownRanksOf rankOf pot := mem_of_mem_pickBest hr
        obtain ⟨i, hi, rfl⟩ := List.mem_map.mp hmem
        rw [hlen1]
        exact ((hp pot hpot).2.2 i hi).1
      · have hsub := pickBest_map_sublist (showdownRanksOf rankOf pot) (·.playerIndex)
        rw [map_playerIndex_showdownRanksOf rankOf pot] at hsub
        exact List.Nodup.sublist hsub (hp pot hpot).2.1
    rw [stack_getD_creditPlayersLoop _ _ j hv,
        stack_getD_assignRanksFrom rankOf g.players 0 j hj]
    unfold showdownSharesSum
    rw [List.map_map]
    congr 1
    congr 1
    apply List.map_congr_left
    intro pot hpot
    show (if j ∈ potWinnersOf _ then potShareOf _ else 0) = _
    rw [potShareOf_pickBest]
    rfl

def c2p0 : Player :=
  { id := 0, stack := 0, potCommitment := 0, inGame := true, isAllIn := false,
    allowRaise := true, actionState := "check", showdownRank := none }

def c2p1 : Player :=
  { id := 1, stack := 0, potCommitment := 0, inGame := true, isAllIn := false,
    allowRaise := true, actionState := "check", showdownRank := none }

def c2Pot : Pot :=
  { open_ := true, prevARsAmount := 999, currARAmount := 0, playerCommitment := 0,
    history := [], potentialWinners := [0, 1], winHandRanks := [] }

def c2State : PokerGame :=
  { newPokerGame with initialized := true, buyIn := 10000, smallBlind := 100,
                      bigBlind := 200, players := [c2p0, c2p1], pots := [c2Pot],
                      turnIdx := 0, actionRound := 3 }

/-- C2 counterexample: a 999-cent pot with two tied winners pays each winner
999/2 = 499.5 cents - the source divides exactly, not by integer division, so
the per-winner share is not a whole number of cents as the claim states. -/
theorem C2_counterexample :
    (getShowdownInfoAndAssignWinnings (fun _ => 1) c2State).toOption.map Prod.snd
      = some [((999 : ℚ) / 2, [0, 1])] ∧
    ((999 : ℚ) / 2).den = 2 := by
  constructor
  · with_unfolding_all rfl
  · with_unfolding_all rfl

def w2p0 : Player :=
  { id := 0, stack := 100, potCommitment := 0, inGame := true, isAllIn := false,
    allowRaise := true, actionState := "check", showdownRank := none }

def w2p1 : Player :=
  { id := 1, stack := 200, potCommitment := 0, inGame := true, isAllIn := false,
    allowRaise := true, actionState := "check", showdownRank := none }

def w2Pot : Pot :=
  { open_ := true, prevARsAmount := 1000, currARAmount := 0, playerCommitment := 0,
    history := [], potentialWinners := [0, 1], winHandRanks := [] }

def w2State : PokerGame :=
  { newPokerGame with initialized := true, buyIn := 10000, smallBlind := 100,
                      bigBlind := 200, players := [w2p0, w2p1], pots := [w2Pot],
                      turnIdx := 0, actionRound := 3 }

def w2Result : PokerGame × List (ℚ × List ℕ) :=
  match getShowdownInfoAndAssignWinnings (fun _ => 7) w2State with
  | .ok r => r
  | .error _ => (w2State, [])

theorem C2_showdown_settlement_witness :
    getShowdownInfoAndAssignWinnings (fun _ => 7) w2State = .ok w2Result ∧
    w2Result.2 = w2State.pots.map (fun pot =>
      (showdownPotShare (fun _ => 7) pot, showdownPotWinners (fun _ => 7) pot)) ∧
    w2Result.2 = [((500 : ℚ), [0, 1])] ∧
    (w2Result.1.players.getD 0 defaultPlayer).stack = 600 ∧
    (w2Result.1.players.getD 1 defaultPlayer).stack = 700 := by
  have hok : getShowdownInfoAndAssignWinnings (fun _ => 7) w2State = .ok w2Result := by
    with_unfolding_all rfl
  have hp : ∀ pot ∈ w2State.pots, pot.potentialWinners ≠ [] ∧ pot.potentialWinners.Nodup ∧
      ∀ j ∈ pot.potentialWinners, j < w2State.players.length ∧
        (w2State.players.getD j defaultPlayer).inGame = true := by
    intro pot hpot
    rw [show w2State.pots = [w2Pot] from rfl, List.mem_singleton] at hpot
    subst hpot
    refine ⟨by decide, by decide, by decide⟩
  have h := C2_showdown_settlement w2State (fun _ => 7) rfl rfl hp w2Result hok
  exact ⟨hok, h.1, by with_unfolding_all rfl, by with_unfolding_all rfl,
    by with_unfolding_all rfl⟩

theorem set_of_length_le {α : Type} (l : List α) (i : ℕ) (a : α) (h : l.length ≤ i) :
    l.set i a = l := by
  induction l generalizing i with
  | nil => rfl
  | cons x t ih =>
    cases i with
    | zero => simp at h
    | succ n =>
      simp only [List.set]
      rw [ih n (by simpa using h)]

theorem chipTotal_setCurrentActionState (g : PokerGame) (s : String) :
    chipTotal (setCurrentActionState g s) = chipTotal g := by
  unfold chipTotal setCurrentActionState
  simp only
  by_cases h : g.turnIdx < g.players.length
  · rw [stackSum_set _ _ _ h]
    unfold currentPlayer
    ring
  · rw [set_of_length_le _ _ _ (by omega)]

theorem advanceDealer_players : ∀ (fuel : ℕ) (g : PokerGame),
    (advanceDealer fuel g).players = g.players := by
  intro fuel
  induction fuel with
  | zero => intro g; rfl
  | succ n ih =>
    intro g
    unfold advanceDealer
    by_cases h : ((({ g with dealerIdx := (g.dealerIdx + 1) % g.players.length } :
        PokerGame)).players.getD (((g.dealerIdx + 1) % g.players.length)) defaultPlayer).inGame
    · simp only [h, if_true]
    · simp only [h, Bool.false_eq_true, if_false]
      rw [ih]

theorem advanceDealer_pots : ∀ (fuel : ℕ) (g : PokerGame),
    (advanceDealer fuel g).pots = g.pots := by
  intro fuel
  induction fuel with
  | zero => intro g; rfl
  | succ n ih =>
    intro g
    unfold advanceDealer
    by_cases h : ((({ g with dealerIdx := (g.dealerIdx + 1) % g.players.length } :
        PokerGame)).players.getD (((g.dealerIdx + 1) % g.players.length)) defaultPlayer).inGame
    · simp only [h, if_true]
    · simp only [h, Bool.false_eq_true, if_false]
      rw [ih]

theorem chipTotal_advanceDealer (fuel : ℕ) (g : PokerGame) :
    chipTotal (advanceDealer fuel g) = chipTotal g := by
  unfold chipTotal
  rw [advanceDealer_players, advanceDealer_pots]

theorem advanceDealer_dealerIdx_lt : ∀ (fuel : ℕ) (g : PokerGame), 0 < fuel →
    0 < g.players.length → (advanceDealer fuel g).dealerIdx < g.players.length := by
  intro fuel
  induction fuel with
  | zero => intro g h _; omega
  | succ n ih =>
    intro g _ hpos
    unfold advanceDealer
    by_cases h : ((({ g with dealerIdx := (g.dealerIdx + 1) % g.players.length } :
        PokerGame)).players.getD (((g.dealerIdx + 1) % g.players.length)) defaultPlayer).inGame
    · simp only [h, if_true]
      exact Nat.mod_lt _ hpos
    · simp only [h, Bool.false_eq_true, if_false]
      cases n with
      | zero => exact Nat.mod_lt _ hpos
      | succ m => exact ih _ (by omega) hpos

theorem length_players_playerRaise (g : PokerGame) (amt : ℚ) :
    (playerRaise g amt).players.length = g.players.length := by
  unfold playerRaise
  simp [List.length_set]

theorem turnIdx_playerRaise (g : PokerGame) (amt : ℚ) :
    (playerRaise g amt).turnIdx = g.turnIdx := rfl

theorem length_players_setCurrentActionState (g : PokerGame) (s : String) :
    (setCurrentActionState g s).players.length = g.players.length := by
  unfold setCurrentActionState
  simp [List.length_set]

theorem potsSum_of_curr_zero (pots : List Pot) (h : ∀ pot ∈ pots, pot.currARAmount = 0) :
    potsSum pots = (pots.map (·.prevARsAmount)).sum := by
  unfold potsSum
  congr 1
  apply List.map_congr_left
  intro pot hpot
  rw [h pot hpot]
  ring

theorem canCall_ok_true_len (g : PokerGame) (h : canCurrentPlayerCall g = .ok true) :
    g.turnIdx < g.players.length := by
  unfold canCurrentPlayerCall at h
  by_cases h1 : g.initialized = false
  · rw [if_pos h1] at h
    exact absurd h (by simp)
  · rw [if_neg h1] at h
    by_cases h2 : (g.players.filter
        (fun p => p.actionState == "raise" || p.actionState == "SB")).length = 0
    · rw [if_pos h2] at h
      exact absurd h (by simp)
    · rw [if_neg h2] at h
      by_cases h3 : g.players.length ≤ g.turnIdx
      · rw [if_pos h3] at h
        exact absurd h (by simp)
      · omega

theorem canRaiseBy_ok_len (g : PokerGame) (amt : ℚ) (b : Bool)
    (h : canCurrentPlayerRaiseBy g amt = .ok b) :
    g.turnIdx < g.players.length := by
  unfold canCurrentPlayerRaiseBy at h
  by_cases h1 : g.initialized = false
  · rw [if_pos h1] at h
    exact absurd h (by simp)
  · rw [if_neg h1] at h
    by_cases h3 : g.players.length ≤ g.turnIdx
    · rw [if_pos h3] at h
      exact absurd h (by simp)
    · omega

theorem chipTotal_postBlinds (g : PokerGame) (hlen : g.turnIdx < g.players.length)
    (hpos : 0 < g.players.length) :
    chipTotal (postBlinds g) = chipTotal g := by
  let g1 : PokerGame := { g with minRaise := 0, previousBet := 0 }
  let g2 : PokerGame := playerRaise g1 g.smallBlind
  let g3 : PokerGame := setCurrentActionState g2 "SB"
  let g4 : PokerGame := { g3 with smallBlindIdx := (currentPlayer g3).id }
  let g5 : PokerGame := (incTurnToNextCore g4).1
  let g6 : PokerGame := { g5 with minRaise := 0, previousBet := 0 }
  let g7 : PokerGame := playerRaise g6 g.bigBlind
  let g8 : PokerGame := setCurrentActionState g7 "BB"
  let g9 : PokerGame := { g8 with bigBlindIdx := (currentPlayer g8).id }
  let g10 : PokerGame := (incTurnToNextCore g9).1
  have hpb : chipTotal (postBlinds g) = chipTotal g10 := rfl
  have l4 : g4.players.length = g.players.length := by
    show (setCurrentActionState g2 "SB").players.length = g.players.length
    rw [length_players_setCurrentActionState]
    show (playerRaise g1 g.smallBlind).players.length = g.players.length
    rw [length_players_playerRaise]
  have h5 : g5.turnIdx < g5.players.length := by
    have := incTurnToNextCore_turnIdx_lt g4 (by omega)
    exact this
  have l5 : g5.players.length = g4.players.length := by
    show (incTurnToNextCore g4).1.players.length = g4.players.length
    rw [incTurnToNextCore_players]
  have c10 : chipTotal g10 = chipTotal g9 := chipTotal_incTurnToNextCore g9
  have c8 : chipTotal g8 = chipTotal g7 := chipTotal_setCurrentActionState g7 "BB"
  have c7 : chipTotal g7 = chipTotal g6 := chipTotal_playerRaise g6 g.bigBlind h5
  have c5 : chipTotal g5 = chipTotal g4 := chipTotal_incTurnToNextCore g4
  have c3 : chipTotal g3 = chipTotal g2 := chipTotal_setCurrentActionState g2 "SB"
  have c2 : chipTotal g2 = chipTotal g1 := chipTotal_playerRaise g1 g.smallBlind hlen
  have c9 : chipTotal g9 = chipTotal g8 := rfl
  have c6 : chipTotal g6 = chipTotal g5 := rfl
  have c4 : chipTotal g4 = chipTotal g3 := rfl
  have c1 : chipTotal g1 = chipTotal g := rfl
  rw [hpb, c10, c9, c8, c7, c6, c5, c4, c3, c2, c1]

theorem chipTotal_callCurrentPlayerAction (g : PokerGame) (a : PlayerAction) (g' : PokerGame)
    (h : callCurrentPlayerAction g a = .ok g') : chipTotal g' = chipTotal g := by
  cases a with
  | allIn =>
    unfold callCurrentPlayerAction at h
    dsimp only at h
    by_cases hl : g.players.length ≤ g.turnIdx
    · rw [if_pos hl] at h
      exact absurd h (by simp)
    · rw [if_neg hl] at h
      by_cases hin : (currentPlayer g).inGame = false
      · rw [if_pos hin] at h
        exact absurd h (by simp)
      · rw [if_neg hin] at h
        injection h with h1
        rw [← h1]
        exact chipTotal_playerAllIn g (by omega)
  | fold =>
    unfold callCurrentPlayerAction at h
    dsimp only at h
    by_cases hl : g.players.length ≤ g.turnIdx
    · rw [if_pos hl] at h
      exact absurd h (by simp)
    · rw [if_neg hl] at h
      by_cases hin : (currentPlayer g).inGame = false
      · rw [if_pos hin] at h
        exact absurd h (by simp)
      · rw [if_neg hin] at h
        injection h with h1
        rw [← h1]
        exact chipTotal_playerFold g (by omega)
  | check =>
    unfold callCurrentPlayerAction at h
    dsimp only at h
    by_cases hi : g.initialized = false
    · rw [if_pos hi] at h
      exact absurd h (by simp)
    · rw [if_neg hi] at h
      by_cases hc : g.allowCheck = false
      · rw [if_pos hc] at h
        exact absurd h (by simp)
      · rw [if_neg hc] at h
        by_cases hl : g.players.length ≤ g.turnIdx
        · rw [if_pos hl] at h
          exact absurd h (by simp)
        · rw [if_neg hl] at h
          injection h with h1
          rw [← h1]
          exact chipTotal_playerCheck g (by omega)
  | call =>
    unfold callCurrentPlayerAction at h
    dsimp only at h
    cases hc : canCurrentPlayerCall g with
    | error e => rw [hc] at h; exact absurd h (by simp)
    | ok b =>
      rw [hc] at h
      cases b with
      | false => exact absurd h (by simp)
      | true =>
        injection h with h1
        rw [← h1]
        exact chipTotal_playerCall g (canCall_ok_true_len g hc)
  | raise amt =>
    unfold callCurrentPlayerAction at h
    dsimp only at h
    cases hr : canCurrentPlayerRaise g with
    | error e => rw [hr] at h; exact absurd h (by simp)
    | ok b =>
      rw [hr] at h
      cases b with
      | false => exact absurd h (by simp)
      | true =>
        cases hrb : canCurrentPlayerRaiseBy g amt with
        | error e => rw [hrb] at h; exact absurd h (by simp)
        | ok b2 =>
          rw [hrb] at h
          cases b2 with
          | false => exact absurd h (by simp)
          | true =>
            injection h with h1
            rw [← h1]
            exact chipTotal_playerRaise g amt (canRaiseBy_ok_len g amt true hrb)

theorem organizePots_ok_inv (g g' : PokerGame)
    (h : organizePotsAfterRoundEnded g = .ok g') :
    g' = { g with pots := g.pots.map (organizePot g) } := by
  unfold organizePotsAfterRoundEnded at h
  by_cases hdre : dealerRoundEnded g = true
  · rw [if_pos hdre] at h
    injection h with h1
    exact h1.symm
  · rw [if_neg hdre] at h
    cases ha : actionRoundEndedViaAllInScenario g with
    | error e => rw [ha] at h; exact absurd h (by simp)
    | ok b =>
      rw [ha] at h
      dsimp only at h
      by_cases hb : (b || actionRoundEnded g) = true
      · rw [if_pos hb] at h
        injection h with h1
        exact h1.symm
      · rw [if_neg hb] at h
        exact absurd h (by simp)

theorem potsSum_organizePot (g : PokerGame) (pots : List Pot) :
    potsSum (pots.map (organizePot g)) = potsSum pots := by
  unfold potsSum
  rw [List.map_map]
  congr 1
  apply List.map_congr_left
  intro pot hpot
  show (organizePot g pot).prevARsAmount + (organizePot g pot).currARAmount
    = pot.prevARsAmount + pot.currARAmount
  unfold organizePot
  by_cases hop : pot.open_
  · rw [if_pos hop]
    show pot.prevARsAmount + pot.currARAmount + 0 = _
    ring
  · rw [if_neg hop]

theorem chipTotal_organizePots (g g' : PokerGame)
    (h : organizePotsAfterRoundEnded g = .ok g') : chipTotal g' = chipTotal g := by
  rw [organizePots_ok_inv g g' h]
  unfold chipTotal
  show stackSum g.players + potsSum (g.pots.map (organizePot g)) = _
  rw [potsSum_organizePot]

theorem potsSum_freshPot (x : PokerGame) : potsSum [freshPot x] = 0 := by
  simp [potsSum, freshPot]

theorem chipTotal_getDealerRoundInfo (g : PokerGame) (r : PokerGame × ℕ × ℚ)
    (hcurr : ∀ pot ∈ g.pots, pot.currARAmount = 0)
    (h : getDealerRoundInfoAndAssignWinnings g = .ok r) :
    chipTotal r.1 = chipTotal g := by
  unfold getDealerRoundInfoAndAssignWinnings at h
  by_cases hi : g.initialized = false
  · rw [if_pos hi] at h
    exact absurd h (by simp)
  · rw [if_neg hi] at h
    by_cases hd : dealerRoundEnded g = false
    · rw [if_pos hd] at h
      exact absurd h (by simp)
    · rw [if_neg hd] at h
      dsimp only at h
      by_cases hl : g.players.findIdx (·.inGame) < g.players.length
      · rw [if_pos hl] at h
        injection h with h1
        rw [← h1]
        show chipTotal (resetPots _) = chipTotal g
        unfold chipTotal resetPots
        show stackSum (g.players.set _ _) + potsSum [freshPot _] = _
        rw [stackSum_set _ _ _ hl, potsSum_freshPot]
        have hps : potsSum g.pots = potsPrevSum g := by
          rw [potsSum_of_curr_zero g.pots hcurr]
          rfl
        rw [hps]
        show stackSum g.players - _ + (_ + potsPrevSum g) + 0 = stackSum g.players + potsPrevSum g
        ring
      · rw [if_neg hl] at h
        exact absurd h (by simp)

theorem chipTotal_showdown (g : PokerGame) (rankOf : ℕ → ℕ)
    (r : PokerGame × List (ℚ × List ℕ))
    (hinit : g.initialized = true) (h3 : g.actionRound = 3)
    (hp : ∀ pot ∈ g.pots, pot.currARAmount = 0 ∧ pot.potentialWinners ≠ [] ∧
      ∀ j ∈ pot.potentialWinners, j < g.players.length ∧
        (g.players.getD j defaultPlayer).inGame = true)
    (h : getShowdownInfoAndAssignWinnings rankOf g = .ok r) :
    chipTotal r.1 = chipTotal g := by
  rw [showdown_eval rankOf g hinit h3] at h
  injection h with h1
  rw [← h1]
  have hpots1 : g.pots.map (assignWinHandRanks (assignRanksFrom rankOf 0 g.players))
      = g.pots.map (fun pot =>
          { pot with winHandRanks := pickBestHandRanks (showdownRanksOf rankOf pot) }) :=
    List.map_congr_left (fun pot hpot => assignWinHandRanks_eq g rankOf pot (hp pot hpot).2.2)
  unfold chipTotal
  show stackSum ((settleLoop (assignRanksFrom rankOf 0 g.players)
      (g.pots.map (assignWinHandRanks (assignRanksFrom rankOf 0 g.players)))).1)
    + potsSum [freshPot _] = stackSum g.players + potsSum g.pots
  rw [potsSum_freshPot, hpots1, settleLoop_spec]
  show stackSum (creditPlayersLoop (assignRanksFrom rankOf 0 g.players)
      (g.pots.map (fun pot =>
        { pot with winHandRanks := pickBestHandRanks (showdownRanksOf rankOf pot) })))
    + 0 = _
  have hlen1 : (assignRanksFrom rankOf 0 g.players).length = g.players.length :=
    length_assignRanksFrom rankOf 0 g.players
  have hv : ∀ pot1 ∈ g.pots.map (fun pot =>
      { pot with winHandRanks := pickBestHandRanks (showdownRanksOf rankOf pot) }),
      ∀ q ∈ pot1.winHandRanks,
        q.playerIndex < (assignRanksFrom rankOf 0 g.players).length := by
    intro pot1 hpot1 q hq
    obtain ⟨pot, hpot, rfl⟩ := List.mem_map.mp hpot1
    have hmem : q ∈ showdownRanksOf rankOf pot := mem_of_mem_pickBest hq
    obtain ⟨i, hi, rfl⟩ := List.mem_map.mp hmem
    rw [hlen1]
    exact ((hp pot hpot).2.2 i hi).1
  rw [stackSum_creditPlayersLoop _ _ hv, stackSum_assignRanksFrom]
  have hsum : ((g.pots.map (fun pot =>
      { pot with winHandRanks := pickBestHandRanks (showdownRanksOf rankOf pot) })).map
        (fun pot => (pot.winHandRanks.length : ℚ) * potShareOf pot)).sum
      = (g.pots.map (·.prevARsAmount)).sum := by
    rw [List.map_map]
    congr 1
    apply List.map_congr_left
    intro pot hpot
    show ((pickBestHandRanks (showdownRanksOf rankOf pot)).length : ℚ)
        * potShareOf { pot with winHandRanks := pickBestHandRanks (showdownRanksOf rankOf pot) }
      = pot.prevARsAmount
    unfold potShareOf
    have hne : showdownRanksOf rankOf pot ≠ [] := by
      unfold showdownRanksOf
      intro hc
      exact (hp pot hpot).2.1 (List.map_eq_nil_iff.mp hc)
    have hlt := length_pickBest_pos _ hne
    have hnz : ((pickBestHandRanks (showdownRanksOf rankOf pot)).length : ℚ) ≠ 0 := by
      exact_mod_cast Nat.pos_iff_ne_zero.mp hlt
    show ((pickBestHandRanks (showdownRanksOf rankOf pot)).length : ℚ)
        * (pot.prevARsAmount / ((pickBestHandRanks (showdownRanksOf rankOf pot)).length : ℚ))
      = pot.prevARsAmount
    field_simp
  rw [hsum]
  have hps : potsSum g.pots = (g.pots.map (·.prevARsAmount)).sum :=
    potsSum_of_curr_zero g.pots (fun pot hpot => (hp pot hpot).1)
  rw [hps]
  ring

theorem chipTotal_refreshAndInc (g : PokerGame) (r : PokerGame × List Player)
    (h : refreshAndIncActionRound g = .ok r) : chipTotal r.1 = chipTotal g := by
  unfold refreshAndIncActionRound at h
  by_cases h1 : g.initialized = false
  · rw [if_pos h1] at h
    exact absurd h (by simp)
  · rw [if_neg h1] at h
    by_cases h2 : actionRoundStr g = "river"
    · rw [if_pos h2] at h
      exact absurd h (by simp)
    · rw [if_neg h2] at h
      by_cases h3 : actionRoundStr g = "uninitialized"
      · rw [if_pos h3] at h
        exact absurd h (by simp)
      · rw [if_neg h3] at h
        injection h with h4
        rw [← h4]
        unfold chipTotal
        show stackSum ((incTurnToNextCore { g with
            players := g.players.map (fun p =>
              { p with potCommitment := 0, actionState := "", allowRaise := true }),
            previousBet := 0, minRaise := g.bigBlind, allowCheck := true,
            turnIdx := g.dealerIdx }).1.players.map (fun p =>
              if p.inGame then { p with actionState := " " } else p))
          + potsSum (incTurnToNextCore { g with
            players := g.players.map (fun p =>
              { p with potCommitment := 0, actionState := "", allowRaise := true }),
            previousBet := 0, minRaise := g.bigBlind, allowCheck := true,
            turnIdx := g.dealerIdx }).1.pots = stackSum g.players + potsSum g.pots
        rw [stackSum_map_of_stack_eq
          (fun p => if p.inGame then { p with actionState := " " } else p)
          (fun p => by by_cases hin : p.inGame <;> simp [hin])]
        rw [incTurnToNextCore_players, incTurnToNextCore_pots]
        show stackSum (g.players.map (fun p =>
            { p with potCommitment := 0, actionState := "", allowRaise := true }))
          + potsSum g.pots = _
        rw [stackSum_map_of_stack_eq
          (fun p => { p with potCommitment := 0, actionState := "", allowRaise := true })
          (fun p => by simp)]


theorem stackSum_refreshPlayers (bb : ℚ) (ps : List Player) :
    stackSum (refreshPlayers bb ps) = stackSum ps := by
  unfold refreshPlayers
  rw [stackSum_map_of_stack_eq
    (fun p =>
      let q := { p with actionState := "", potCommitment := 0, inGame := true,
                        allowRaise := true, isAllIn := false,
                        showdownRank := (none : Option HandRank) }
      if q.stack = 0 ∨ q.stack < bb then { q with inGame := false } else q)
    (fun p => by
      by_cases hs : p.stack = 0 ∨ p.stack < bb
      · simp only [hs, if_true]
      · simp only [hs, if_false])]

theorem length_refreshPlayers (bb : ℚ) (ps : List Player) :
    (refreshPlayers bb ps).length = ps.length := by
  unfold refreshPlayers
  rw [List.length_map]

theorem chipTotal_checkSBGrant (g : PokerGame) :
    chipTotal (checkSBGrant g) = chipTotal g := by
  unfold checkSBGrant
  by_cases hcond : ((currentPlayer g).actionState == "SB"
      && g.smallBlind == g.bigBlind) = true
  · rw [if_pos hcond]
    rfl
  · rw [if_neg hcond]

theorem chipTotal_refreshDealerRoundTail (g2 : PokerGame) (hpos : 0 < g2.players.length) :
    chipTotal (refreshDealerRoundTail g2) = chipTotal g2 := by
  unfold refreshDealerRoundTail
  have hpos4 : 0 < (setTurnToDealer (advanceDealer g2.players.length g2)).players.length := by
    show 0 < (advanceDealer g2.players.length g2).players.length
    rw [advanceDealer_players]
    exact hpos
  have hlen5 := incTurnToNextCore_turnIdx_lt _ hpos4
  have hpos5 : 0 < (incTurnToNextCore
      (setTurnToDealer (advanceDealer g2.players.length g2))).1.players.length := by
    rw [incTurnToNextCore_players]
    exact hpos4
  rw [chipTotal_checkSBGrant, chipTotal_postBlinds _ hlen5 hpos5,
      chipTotal_incTurnToNextCore]
  show chipTotal (advanceDealer g2.players.length g2) = chipTotal g2
  rw [chipTotal_advanceDealer]

set_option maxHeartbeats 2000000 in
theorem chipTotal_refreshDealerRound (g : PokerGame) (r : Bool × PokerGame)
    (hz : potsSum g.pots = 0)
    (h : refreshDealerRound g = .ok r) : chipTotal r.2 = chipTotal g := by
  unfold refreshDealerRound at h
  by_cases h1 : g.initialized = false
  · rw [if_pos h1] at h
    exact absurd h (by simp)
  · rw [if_neg h1] at h
    dsimp only at h
    have hc2 : chipTotal { resetPots { g with actionRound := 0 } with
        players := refreshPlayers g.bigBlind (resetPots { g with actionRound := 0 }).players }
        = chipTotal g := by
      show stackSum (refreshPlayers g.bigBlind g.players)
          + potsSum [freshPot { g with actionRound := 0 }]
        = stackSum g.players + potsSum g.pots
      rw [potsSum_freshPot, stackSum_refreshPlayers, hz]
    by_cases hend : numPlayersInGame { resetPots { g with actionRound := 0 } with
        players := refreshPlayers g.bigBlind (resetPots { g with actionRound := 0 }).players } ≤ 1
    · rw [if_pos hend] at h
      injection h with h5
      rw [← h5]
      exact hc2
    · rw [if_neg hend] at h
      injection h with h5
      rw [← h5]
      dsimp only
      rw [chipTotal_refreshDealerRoundTail _ (by
        have hle : numPlayersInGame { resetPots { g with actionRound := 0 } with
            players := refreshPlayers g.bigBlind
              (resetPots { g with actionRound := 0 }).players }
          ≤ (refreshPlayers g.bigBlind g.players).length := List.length_filter_le _ _
        show 0 < (refreshPlayers g.bigBlind g.players).length
        omega)]
      exact hc2

/-- C1 (amended): chip conservation per engine operation. Action application
and pot organization conserve the table total unconditionally; action-round
refresh conserves it unconditionally; fold-out and showdown settlement
conserve it provided every pots current-round amount is zero (the state
organizePotsAfterRoundEnded establishes) - with a nonzero current-round
amount the fold-out settlement destroys those chips - and dealer-round
refresh conserves it provided the pot ledger is empty, as it is after any
settlement. -/
theorem C1_chip_conservation :
    (∀ (g : PokerGame) (a : PlayerAction) (g' : PokerGame),
      callCurrentPlayerAction g a = .ok g' → chipTotal g' = chipTotal g) ∧
    (∀ g g' : PokerGame,
      organizePotsAfterRoundEnded g = .ok g' → chipTotal g' = chipTotal g) ∧
    (∀ (g : PokerGame) (r : PokerGame × ℕ × ℚ), (∀ pot ∈ g.pots, pot.currARAmount = 0) →
      getDealerRoundInfoAndAssignWinnings g = .ok r → chipTotal r.1 = chipTotal g) ∧
    (∀ (g : PokerGame) (rankOf : ℕ → ℕ) (r : PokerGame × List (ℚ × List ℕ)),
      g.initialized = true → g.actionRound = 3 →
      (∀ pot ∈ g.pots, pot.currARAmount = 0 ∧ pot.potentialWinners ≠ [] ∧
        ∀ j ∈ pot.potentialWinners, j < g.players.length ∧
          (g.players.getD j defaultPlayer).inGame = true) →
      getShowdownInfoAndAssignWinnings rankOf g = .ok r → chipTotal r.1 = chipTotal g) ∧
    (∀ (g : PokerGame) (r : PokerGame × List Player),
      refreshAndIncActionRound g = .ok r → chipTotal r.1 = chipTotal g) ∧
    (∀ (g : PokerGame) (r : Bool × PokerGame), potsSum g.pots = 0 →
      refreshDealerRound g = .ok r → chipTotal r.2 = chipTotal g) :=
  ⟨chipTotal_callCurrentPlayerAction,
   chipTotal_organizePots,
   fun g r hc h => chipTotal_getDealerRoundInfo g r hc h,
   fun g rankOf r hi h3 hp h => chipTotal_showdown g rankOf r hi h3 hp h,
   chipTotal_refreshAndInc,
   fun g r hz h => chipTotal_refreshDealerRound g r hz h⟩

def c1p0 : Player :=
  { id := 0, stack := 10, potCommitment := 150, inGame := false, isAllIn := false,
    allowRaise := true, actionState := "fold", showdownRank := none }

def c1p1 : Player :=
  { id := 1, stack := 20, potCommitment := 100, inGame := true, isAllIn := false,
    allowRaise := true, actionState := " ", showdownRank := none }

def c1Pot : Pot :=
  { open_ := true, prevARsAmount := 0, currARAmount := 250, playerCommitment := 150,
    history := [(0, 150), (1, 100)], potentialWinners := [1], winHandRanks := [] }

def c1State : PokerGame :=
  { newPokerGame with initialized := true, buyIn := 10000, smallBlind := 100,
                      bigBlind := 200, players := [c1p0, c1p1], pots := [c1Pot],
                      turnIdx := 1, actionRound := 0, previousBet := 150,
                      minRaise := 200 }

/-- C1 counterexample: a fold-out settlement invoked while 250 cents of
current-round commitments still sit in the pot pays the winner only the
carried-over total (0) and resets the ledger, dropping the table total from
280 to 30 cents - chip conservation fails for this reachable operation. -/
theorem C1_counterexample :
    dealerRoundEnded c1State = true ∧
    chipTotal c1State = 280 ∧
    (getDealerRoundInfoAndAssignWinnings c1State).toOption.map (fun r => chipTotal r.1)
      = some 30 := by
  refine ⟨?_, ?_, ?_⟩
  · with_unfolding_all rfl
  · with_unfolding_all rfl
  · with_unfolding_all rfl

def c1w1p0 : Player :=
  { id := 0, stack := 500, potCommitment := 100, inGame := true, isAllIn := false,
    allowRaise := true, actionState := " ", showdownRank := none }

def c1w1p1 : Player :=
  { id := 1, stack := 700, potCommitment := 100, inGame := true, isAllIn := false,
    allowRaise := true, actionState := " ", showdownRank := none }

def c1w1Pot : Pot :=
  { open_ := true, prevARsAmount := 0, currARAmount := 200, playerCommitment := 100,
    history := [(0, 100), (1, 100)], potentialWinners := [0, 1], winHandRanks := [] }

def c1w1State : PokerGame :=
  { newPokerGame with initialized := true, buyIn := 10000, smallBlind := 100,
                      bigBlind := 200, players := [c1w1p0, c1w1p1], pots := [c1w1Pot],
                      turnIdx := 0, actionRound := 1 }

def c1w1Res : PokerGame :=
  match callCurrentPlayerAction c1w1State .fold with
  | .ok r => r
  | .error _ => c1w1State

def c1w2p : Player :=
  { id := 0, stack := 900, potCommitment := 100, inGame := true, isAllIn := false,
    allowRaise := true, actionState := " ", showdownRank := none }

def c1w2Pot : Pot :=
  { open_ := true, prevARsAmount := 60, currARAmount := 40, playerCommitment := 40,
    history := [(0, 40)], potentialWinners := [0], winHandRanks := [] }

def c1w2State : PokerGame :=
  { newPokerGame with initialized := true, buyIn := 10000, smallBlind := 100,
                      bigBlind := 200, players := [c1w2p], pots := [c1w2Pot],
                      turnIdx := 0, actionRound := 0 }

def c1w2Res : PokerGame :=
  match organizePotsAfterRoundEnded c1w2State with
  | .ok r => r
  | .error _ => c1w2State

def c1w3p0 : Player :=
  { id := 0, stack := 10, potCommitment := 0, inGame := false, isAllIn := false,
    allowRaise := true, actionState := "fold", showdownRank := none }

def c1w3p1 : Player :=
  { id := 1, stack := 20, potCommitment := 0, inGame := true, isAllIn := false,
    allowRaise := true, actionState := " ", showdownRank := none }

def c1w3Pot : Pot :=
  { open_ := true, prevARsAmount := 300, currARAmount := 0, playerCommitment := 0,
    history := [], potentialWinners := [1], winHandRanks := [] }

def c1w3State : PokerGame :=
  { newPokerGame with initialized := true, buyIn := 10000, smallBlind := 100,
                      bigBlind := 200, players := [c1w3p0, c1w3p1], pots := [c1w3Pot],
                      turnIdx := 1, actionRound := 0 }

def c1w3Res : PokerGame × ℕ × ℚ :=
  match getDealerRoundInfoAndAssignWinnings c1w3State with
  | .ok r => r
  | .error _ => (c1w3State, 0, 0)

def c1w4p0 : Player :=
  { id := 0, stack := 150, potCommitment := 0, inGame := true, isAllIn := false,
    allowRaise := true, actionState := "check", showdownRank := none }

def c1w4p1 : Player :=
  { id := 1, stack := 250, potCommitment := 0, inGame := true, isAllIn := false,
    allowRaise := true, actionState := "check", showdownRank := none }

def c1w4Pot : Pot :=
  { open_ := true, prevARsAmount := 800, currARAmount := 0, playerCommitment := 0,
    history := [], potentialWinners := [0, 1], winHandRanks := [] }

def c1w4State : PokerGame :=
  { newPokerGame with initialized := true, buyIn := 10000, smallBlind := 100,
                      bigBlind := 200, players := [c1w4p0, c1w4p1], pots := [c1w4Pot],
                      turnIdx := 0, actionRound := 3 }

def c1w4Res : PokerGame × List (ℚ × List ℕ) :=
  match getShowdownInfoAndAssignWinnings (fun _ => 5) c1w4State with
  | .ok r => r
  | .error _ => (c1w4State, [])

def c1w5p : Player :=
  { id := 0, stack := 100, potCommitment := 50, inGame := true, isAllIn := false,
    allowRaise := true, actionState := "call", showdownRank := none }

def c1w5Pot : Pot :=
  { open_ := true, prevARsAmount := 0, currARAmount := 50, playerCommitment := 50,
    history := [(0, 50)], potentialWinners := [0], winHandRanks := [] }

def c1w5State : PokerGame :=
  { newPokerGame with initialized := true, buyIn := 10000, smallBlind := 100,
                      bigBlind := 200, players := [c1w5p], pots := [c1w5Pot],
                      turnIdx := 0, dealerIdx := 0, actionRound := 1 }

def c1w5Res : PokerGame × List Player :=
  match refreshAndIncActionRound c1w5State with
  | .ok r => r
  | .error _ => (c1w5State, [])

def c1w6p0 : Player :=
  { id := 0, stack := 1000, potCommitment := 0, inGame := true, isAllIn := false,
    allowRaise := true, actionState := " ", showdownRank := none }

def c1w6p1 : Player :=
  { id := 1, stack := 1000, potCommitment := 0, inGame := true, isAllIn := false,
    allowRaise := true, actionState := " ", showdownRank := none }

def c1w6Pot : Pot :=
  { open_ := true, prevARsAmount := 0, currARAmount := 0, playerCommitment := 0,
    history := [], potentialWinners := [0, 1], winHandRanks := [] }

def c1w6State : PokerGame :=
  { newPokerGame with initialized := true, buyIn := 10000, smallBlind := 100,
                      bigBlind := 200, players := [c1w6p0, c1w6p1], pots := [c1w6Pot],
                      turnIdx := 0, dealerIdx := 0, actionRound := 3 }

def c1w6Res : Bool × PokerGame :=
  match refreshDealerRound c1w6State with
  | .ok r => r
  | .error _ => (true, c1w6State)

theorem C1_chip_conservation_witness :
    (callCurrentPlayerAction c1w1State .fold = .ok c1w1Res ∧
      chipTotal c1w1Res = chipTotal c1w1State) ∧
    (organizePotsAfterRoundEnded c1w2State = .ok c1w2Res ∧
      chipTotal c1w2Res = chipTotal c1w2State) ∧
    ((∀ pot ∈ c1w3State.pots, pot.currARAmount = 0) ∧
      getDealerRoundInfoAndAssignWinnings c1w3State = .ok c1w3Res ∧
      chipTotal c1w3Res.1 = chipTotal c1w3State) ∧
    (c1w4State.initialized = true ∧ c1w4State.actionRound = 3 ∧
      getShowdownInfoAndAssignWinnings (fun _ => 5) c1w4State = .ok c1w4Res ∧
      chipTotal c1w4Res.1 = chipTotal c1w4State) ∧
    (refreshAndIncActionRound c1w5State = .ok c1w5Res ∧
      chipTotal c1w5Res.1 = chipTotal c1w5State) ∧
    (potsSum c1w6State.pots = 0 ∧ refreshDealerRound c1w6State = .ok c1w6Res ∧
      chipTotal c1w6Res.2 = chipTotal c1w6State) := by
  have h1 : callCurrentPlayerAction c1w1State .fold = .ok c1w1Res := by
    with_unfolding_all rfl
  have h2 : organizePotsAfterRoundEnded c1w2State = .ok c1w2Res := by
    with_unfolding_all rfl
  have h3 : getDealerRoundInfoAndAssignWinnings c1w3State = .ok c1w3Res := by
    with_unfolding_all rfl
  have h3c : ∀ pot ∈ c1w3State.pots, pot.currARAmount = 0 := by
    intro pot hp
    have he : c1w3State.pots = [c1w3Pot] := rfl
    rw [he, List.mem_singleton] at hp
    subst hp
    with_unfolding_all rfl
  have h4i : c1w4State.initialized = true := by with_unfolding_all rfl
  have h4r : c1w4State.actionRound = 3 := by with_unfolding_all rfl
  have h4 : getShowdownInfoAndAssignWinnings (fun _ => 5) c1w4State = .ok c1w4Res := by
    with_unfolding_all rfl
  have h4p : ∀ pot ∈ c1w4State.pots, pot.currARAmount = 0 ∧ pot.potentialWinners ≠ [] ∧
      ∀ j ∈ pot.potentialWinners, j < c1w4State.players.length ∧
        (c1w4State.players.getD j defaultPlayer).inGame = true := by
    intro pot hp
    have he : c1w4State.pots = [c1w4Pot] := rfl
    rw [he, List.mem_singleton] at hp
    subst hp
    exact ⟨by with_unfolding_all rfl, by decide, by decide⟩
  have h5 : refreshAndIncActionRound c1w5State = .ok c1w5Res := by
    with_unfolding_all rfl
  have h6z : potsSum c1w6State.pots = 0 := by with_unfolding_all rfl
  have h6 : refreshDealerRound c1w6State = .ok c1w6Res := by
    with_unfolding_all rfl
  exact ⟨⟨h1, C1_chip_conservation.1 c1w1State .fold c1w1Res h1⟩,
         ⟨h2, C1_chip_conservation.2.1 c1w2State c1w2Res h2⟩,
         ⟨h3c, h3, C1_chip_conservation.2.2.1 c1w3State c1w3Res h3c h3⟩,
         ⟨h4i, h4r, h4,
          C1_chip_conservation.2.2.2.1 c1w4State (fun _ => 5) c1w4Res h4i h4r h4p h4⟩,
         ⟨h5, C1_chip_conservation.2.2.2.2.1 c1w5State c1w5Res h5⟩,
         ⟨h6z, h6, C1_chip_conservation.2.2.2.2.2 c1w6State c1w6Res h6z h6⟩⟩
